import Mathlib

/-!
Verification of the progress-tracking subsystem of the puzzles repository
(`src/utils/progressDataModels.js` and `src/utils/progressService.js`).

The JavaScript code is shallowly embedded: JavaScript values are modelled by
the inductive `JSVal`, throwing functions return `Except String`, and the
stateful `ProgressService` is modelled by explicit state passing over
`SvcState` together with a list of emitted subscriber events.
-/

namespace Puzzles

set_option maxRecDepth 10000

/-- Model of a JavaScript runtime value as used by the progress subsystem.
`vSet` is an ES `Set` (insertion-ordered, duplicate-free by construction of
the operations that build it); `vPromise` models the `Promise` object that
`getStorageData` returns on its internal retry path. Property access on
arrays by numeric index and named properties attached to arrays are not
exercised by the modelled code paths. -/
inductive JSVal where
  | vNull
  | vUndef
  | vBool (b : Bool)
  | vNum (n : Int)
  | vStr (s : String)
  | vArr (elems : List JSVal)
  | vObj (fields : List (String × JSVal))
  | vSet (elems : List JSVal)
  | vPromise

open JSVal

mutual

/-- Structural equality of values; it agrees with the JS `===` /
SameValueZero comparisons performed by the embedded code, which only ever
compares primitives (ids, version strings, timestamps). -/
def jsBeq : JSVal → JSVal → Bool
  | vNull, vNull => true
  | vUndef, vUndef => true
  | vBool a, vBool b => a == b
  | vNum a, vNum b => a == b
  | vStr a, vStr b => a == b
  | vArr a, vArr b => jsBeqList a b
  | vObj a, vObj b => jsBeqFields a b
  | vSet a, vSet b => jsBeqList a b
  | vPromise, vPromise => true
  | _, _ => false

/-- Elementwise `jsBeq` on lists of values. -/
def jsBeqList : List JSVal → List JSVal → Bool
  | [], [] => true
  | x :: xs, y :: ys => jsBeq x y && jsBeqList xs ys
  | _, _ => false

/-- Elementwise `jsBeq` on object field lists. -/
def jsBeqFields : List (String × JSVal) → List (String × JSVal) → Bool
  | [], [] => true
  | (k1, v1) :: xs, (k2, v2) :: ys => k1 == k2 && jsBeq v1 v2 && jsBeqFields xs ys
  | _, _ => false

end

/-- Membership of a value in a list, via `jsBeq`. -/
def memJs (x : JSVal) (l : List JSVal) : Bool := l.any (fun y => jsBeq y x)

/-- JavaScript truthiness (`!x` is `¬ truthy x`). NaN is not modelled. -/
def truthy : JSVal → Bool
  | vNull => false
  | vUndef => false
  | vBool b => b
  | vNum n => n != 0
  | vStr s => s != ""
  | _ => true

/-- Whether `typeof x === 'object'`; note `typeof null === 'object'` in JS. -/
def typeofObject : JSVal → Bool
  | vNull | vArr _ | vObj _ | vSet _ | vPromise => true
  | _ => false

/-- Whether `typeof x === 'string'`. -/
def isStr : JSVal → Bool
  | vStr _ => true
  | _ => false

/-- Whether `typeof x === 'number'`. -/
def isNum : JSVal → Bool
  | vNum _ => true
  | _ => false

/-- Whether `Array.isArray x`. -/
def isArr : JSVal → Bool
  | vArr _ => true
  | _ => false

/-- First occurrence lookup in an object's field list. -/
def lookupField : List (String × JSVal) → String → Option JSVal
  | [], _ => none
  | (k, v) :: rest, key => if k = key then some v else lookupField rest key

/-- Property read `x.k` on a value that is not `null`/`undefined`: objects use
their fields, everything else (numbers, strings, arrays, sets, promises)
yields `undefined` for the property names read by this code. -/
def getField : JSVal → String → JSVal
  | vObj fs, k => (lookupField fs k).getD vUndef
  | _, _ => vUndef

/-- Property read `x.k` as the JS engine performs it: throws a `TypeError`
when `x` is `null` or `undefined`. -/
def getFieldE : JSVal → String → Except String JSVal
  | vNull, k => .error ("Cannot read properties of null (reading " ++ k ++ ")")
  | vUndef, k => .error ("Cannot read properties of undefined (reading " ++ k ++ ")")
  | v, k => .ok (getField v k)

/-- Replace the first binding of `k` (object property assignment keeps the
property's position) or append a fresh binding. -/
def upsertField : List (String × JSVal) → String → JSVal → List (String × JSVal)
  | [], k, v => [(k, v)]
  | (k', v') :: rest, k, v =>
    if k' = k then (k, v) :: rest else (k', v') :: upsertField rest k v

/-- Property write `x.k = v` (strict mode): throws on `null`/`undefined`,
updates objects in place; writes to other values are not observed by any
modelled read path and leave the value unchanged. -/
def setFieldE : JSVal → String → JSVal → Except String JSVal
  | vNull, k, _ => .error ("Cannot set properties of null (setting " ++ k ++ ")")
  | vUndef, k, _ => .error ("Cannot set properties of undefined (setting " ++ k ++ ")")
  | vObj fs, k, v => .ok (vObj (upsertField fs k v))
  | x, _, _ => .ok x

/-- `Object.entries x`: object fields, index/value pairs for arrays and
strings, empty for every other value (a `Set` has no enumerable own
properties). -/
def entriesOf : JSVal → List (String × JSVal)
  | vObj fs => fs
  | vArr xs => xs.enum.map (fun p => (toString p.1, p.2))
  | vStr s => s.data.enum.map (fun p => (toString p.1, vStr (String.mk [p.2])))
  | _ => []

/-- Spread `[...x]`: arrays and sets yield their elements, strings their
characters; anything else is not iterable and throws. -/
def spreadE : JSVal → Except String (List JSVal)
  | vArr xs => .ok xs
  | vSet xs => .ok xs
  | vStr s => .ok (s.data.map (fun c => vStr (String.mk [c])))
  | _ => .error "value is not iterable"

/-- Object spread `{...x}`: enumerable own properties; `null`, `undefined`
and other primitives contribute nothing except strings, which contribute
their indexed characters. -/
def objSpread : JSVal → List (String × JSVal)
  | vObj fs => fs
  | vArr xs => xs.enum.map (fun p => (toString p.1, p.2))
  | vStr s => s.data.enum.map (fun p => (toString p.1, vStr (String.mk [p.2])))
  | _ => []

/-- Helper for `new Set`: drop later duplicates, keeping first occurrences
in order. -/
def dedupGo (seen : List JSVal) : List JSVal → List JSVal
  | [] => []
  | x :: xs => if memJs x seen then dedupGo seen xs else x :: dedupGo (x :: seen) xs

/-- `new Set(list)` as its insertion-ordered element list. -/
def jsDedup (l : List JSVal) : List JSVal := dedupGo [] l

/-- `new Set(x)` from an arbitrary value: `null`/`undefined` give the empty
set, iterables their deduplicated elements, anything else throws. -/
def setFromE : JSVal → Except String (List JSVal)
  | vNull => .ok []
  | vUndef => .ok []
  | vArr xs => .ok (jsDedup xs)
  | vSet xs => .ok (jsDedup xs)
  | vStr s => .ok (jsDedup (s.data.map (fun c => vStr (String.mk [c]))))
  | _ => .error "value is not iterable"

/-- `x.length` for the values this code takes lengths of (arrays and
strings); property access on `null`/`undefined` throws, and other values
yield no numeric length. -/
def lengthOfE : JSVal → Except String Nat
  | vArr xs => .ok xs.length
  | vStr s => .ok s.length
  | vNull => .error "Cannot read properties of null (reading length)"
  | vUndef => .error "Cannot read properties of undefined (reading length)"
  | _ => .error "no length"

mutual

/-- String interpolation `${x}` of a value into a template literal. -/
def jsToString : JSVal → String
  | vNull => "null"
  | vUndef => "undefined"
  | vBool b => if b then "true" else "false"
  | vNum n => toString n
  | vStr s => s
  | vArr xs => String.intercalate "," (jsToStringList xs)
  | vObj _ => "[object Object]"
  | vSet _ => "[object Set]"
  | vPromise => "[object Promise]"

/-- Elementwise stringification for the array case of `jsToString`. -/
def jsToStringList : List JSVal → List String
  | [] => []
  | x :: xs => jsToString x :: jsToStringList xs

end

/-- `x.includes(y)` for arrays (SameValueZero membership) and strings
(substring test after coercion); calling `.includes` on `null`/`undefined`
or a non-collection throws. -/
def includesE : JSVal → JSVal → Except String Bool
  | vArr xs, y => .ok (memJs y xs)
  | vStr s, y => .ok (decide ((jsToString y).data <:+: s.data))
  | _, _ => .error "includes is not a function"

/-! ### Schema & validation layer (`src/utils/progressDataModels.js`) -/

/-- `CURRENT_SCHEMA_VERSION` constant. -/
def CURRENT_SCHEMA_VERSION : String := "1.0.0"

/-- Characters kept by the id sanitizer's `replace(/[^a-zA-Z0-9_-]/g, '')`. -/
def allowedChar (c : Char) : Bool := c.isAlpha || c.isDigit || c = '_' || c = '-'

/-- Whitespace removed by `String.prototype.trim` (the ASCII subset; the
ids this code handles never contain the further Unicode space characters). -/
def wsChar (c : Char) : Bool :=
  c = ' ' || c = '\t' || c = '\n' || c = '\r' || c = '\x0b' || c = '\x0c'

/-- `s.trim()`. -/
def jsTrim (s : String) : String :=
  String.mk (((s.data.dropWhile wsChar).reverse.dropWhile wsChar).reverse)

/-- `s.replace(/[^a-zA-Z0-9_-]/g, '')`. -/
def stripId (s : String) : String := String.mk (s.data.filter allowedChar)

/-- `validateWorldId` (progressDataModels.js:40): trims, strips disallowed
characters, throws if the input is not a string, trims to empty, or strips
to empty. -/
def validateWorldId : JSVal → Except String String
  | vStr s =>
    if jsTrim s = "" then .error "World ID must be a non-empty string"
    else
      let sanitized := stripId (jsTrim s)
      if sanitized = "" then .error "World ID contains no valid characters"
      else .ok sanitized
  | _ => .error "World ID must be a non-empty string"

/-- `validatePuzzleId` (progressDataModels.js:64): same sanitization as
`validateWorldId` with puzzle-id error messages. -/
def validatePuzzleId : JSVal → Except String String
  | vStr s =>
    if jsTrim s = "" then .error "Puzzle ID must be a non-empty string"
    else
      let sanitized := stripId (jsTrim s)
      if sanitized = "" then .error "Puzzle ID contains no valid characters"
      else .ok sanitized
  | _ => .error "Puzzle ID must be a non-empty string"

/-- Body of `validatePuzzleIdArray` after the `Array.isArray` guard: the
`filter` keeps strings with non-empty trim, then `map(validatePuzzleId)`
throws at the first element whose sanitization empties. -/
def validatePuzzleIdArrayL : List JSVal → Except String (List String)
  | [] => .ok []
  | x :: xs =>
    match x with
    | vStr s =>
      if jsTrim s = "" then validatePuzzleIdArrayL xs
      else do
        let id ← validatePuzzleId (vStr s)
        let rest ← validatePuzzleIdArrayL xs
        .ok (id :: rest)
    | _ => validatePuzzleIdArrayL xs

/-- `validatePuzzleIdArray` (progressDataModels.js:87): throws unless the
input is an array. -/
def validatePuzzleIdArray : JSVal → Except String (List String)
  | vArr xs => validatePuzzleIdArrayL xs
  | _ => .error "Puzzle IDs must be an array"

/-- `validateWorldProgress` (progressDataModels.js:108): structural check —
truthy object, string `worldId`, numeric `lastUpdated`, truthy and iterable
puzzle collections. -/
def validateWorldProgress (p : JSVal) : Bool :=
  truthy p && typeofObject p &&
  isStr (getField p "worldId") && isNum (getField p "lastUpdated") &&
  truthy (getField p "solvedPuzzles") && truthy (getField p "unlockedPuzzles") &&
  (spreadE (getField p "solvedPuzzles")).toBool &&
  (spreadE (getField p "unlockedPuzzles")).toBool

/-- `validateStorageWorldData` (progressDataModels.js:180): truthy object
with array puzzle fields and numeric `lastUpdated`. -/
def validateStorageWorldData (w : JSVal) : Bool :=
  truthy w && typeofObject w &&
  isArr (getField w "solvedPuzzles") && isArr (getField w "unlockedPuzzles") &&
  isNum (getField w "lastUpdated")

/-- `validateStorageData` (progressDataModels.js:137): top-level shape plus
`validateStorageWorldData` for every entry of `worlds`. -/
def validateStorageData (d : JSVal) : Bool :=
  truthy d && typeofObject d &&
  truthy (getField d "version") && truthy (getField d "worlds") &&
  truthy (getField d "metadata") &&
  isStr (getField d "version") &&
  typeofObject (getField d "worlds") &&
  typeofObject (getField d "metadata") &&
  isNum (getField (getField d "metadata") "createdAt") &&
  isNum (getField (getField d "metadata") "lastAccessed") &&
  (entriesOf (getField d "worlds")).all (fun e => validateStorageWorldData e.2)

/-- `transformToStorageFormat` (progressDataModels.js:195): spreads the set
collections and re-sanitizes them into arrays; throws on a structurally
invalid progress or an entry whose sanitization empties. -/
def transformToStorageFormat (p : JSVal) : Except String JSVal :=
  if ¬ validateWorldProgress p then .error "Invalid WorldProgress object"
  else
    match (spreadE (getField p "solvedPuzzles")).bind validatePuzzleIdArrayL with
    | .error e => .error e
    | .ok solved =>
      match (spreadE (getField p "unlockedPuzzles")).bind validatePuzzleIdArrayL with
      | .error e => .error e
      | .ok unlocked =>
        .ok (vObj [("solvedPuzzles", vArr (solved.map vStr)),
                   ("unlockedPuzzles", vArr (unlocked.map vStr)),
                   ("lastUpdated", getField p "lastUpdated")])

/-- `transformFromStorageFormat` (progressDataModels.js:213): validates the
record, sanitizes the world id and the puzzle arrays, builds sets, stamps
the current schema version. -/
def transformFromStorageFormat (wid : JSVal) (sd : JSVal) : Except String JSVal :=
  if ¬ validateStorageWorldData sd then .error "Invalid storage world data"
  else
    match validateWorldId wid with
    | .error e => .error e
    | .ok sid =>
      match validatePuzzleIdArray (getField sd "solvedPuzzles") with
      | .error e => .error e
      | .ok solved =>
        match validatePuzzleIdArray (getField sd "unlockedPuzzles") with
        | .error e => .error e
        | .ok unlocked =>
          .ok (vObj [("worldId", vStr sid),
                     ("solvedPuzzles", vSet (jsDedup (solved.map vStr))),
                     ("unlockedPuzzles", vSet (jsDedup (unlocked.map vStr))),
                     ("lastUpdated", getField sd "lastUpdated"),
                     ("version", vStr CURRENT_SCHEMA_VERSION)])

/-- `createDefaultWorldProgress` (progressDataModels.js:236); `now` stands
for `Date.now()`. -/
def createDefaultWorldProgress (wid : JSVal) (now : Int) : Except String JSVal :=
  match validateWorldId wid with
  | .error e => .error e
  | .ok sid =>
    .ok (vObj [("worldId", vStr sid),
               ("solvedPuzzles", vSet []),
               ("unlockedPuzzles", vSet [vStr "puzzle_1"]),
               ("lastUpdated", vNum now),
               ("version", vStr CURRENT_SCHEMA_VERSION)])

/-- `createDefaultStorageData` (progressDataModels.js:252). -/
def createDefaultStorageData (now : Int) : JSVal :=
  vObj [("version", vStr CURRENT_SCHEMA_VERSION),
        ("worlds", vObj []),
        ("metadata", vObj [("createdAt", vNum now), ("lastAccessed", vNum now)])]

/-- `sanitizeWorldProgress` (progressDataModels.js:268): throws only for a
falsy/non-object input or an unusable world id; each puzzle collection is
recovered inside a `try`/`catch` with empty-set / `{puzzle_1}` fallbacks,
and `lastUpdated` falls back to `now` when non-numeric. -/
def sanitizeWorldProgress (p : JSVal) (now : Int) : Except String JSVal :=
  if ¬ (truthy p && typeofObject p) then .error "Progress must be an object"
  else
    match validateWorldId
        (if truthy (getField p "worldId") then getField p "worldId" else vStr "") with
    | .error e => .error e
    | .ok wid =>
    let solved : List JSVal :=
      let sp := getField p "solvedPuzzles"
      if truthy sp then
        match (spreadE sp).bind validatePuzzleIdArrayL with
        | .ok ids => jsDedup (ids.map vStr)
        | .error _ => []
      else []
    let unlocked : List JSVal :=
      let up := getField p "unlockedPuzzles"
      if truthy up then
        match (spreadE up).bind validatePuzzleIdArrayL with
        | .ok ids => jsDedup (vStr "puzzle_1" :: ids.map vStr)
        | .error _ => [vStr "puzzle_1"]
      else [vStr "puzzle_1"]
    let lu := match getField p "lastUpdated" with
      | vNum n => vNum n
      | _ => vNum now
    .ok (vObj [("worldId", vStr wid),
               ("solvedPuzzles", vSet solved),
               ("unlockedPuzzles", vSet unlocked),
               ("lastUpdated", lu),
               ("version", vStr CURRENT_SCHEMA_VERSION)])

/-! ### Migration layer (`migrations` in progressDataModels.js) -/

/-- `migrations.isMigrationNeeded` with the default target version: strict
inequality `fromVersion !== CURRENT_SCHEMA_VERSION`. -/
def isMigrationNeeded (v : JSVal) : Bool := !(jsBeq v (vStr CURRENT_SCHEMA_VERSION))

/-- `migrations.migrateToCurrentVersion` (progressDataModels.js:335). The
returned flag records JS reference identity with the argument: `true`
exactly on the `return data` path, which callers compare with `!==` to skip
a redundant write. Any version other than `"1.0.0"` (including a missing
one, defaulted to `"0.0.0"`) resets to a fresh default document. -/
def migrateToCurrentVersion (d : JSVal) (now : Int) : JSVal × Bool :=
  if ¬ (truthy d && typeofObject d) then (createDefaultStorageData now, false)
  else
    let cv := if truthy (getField d "version") then getField d "version" else vStr "0.0.0"
    if ¬ isMigrationNeeded cv then (d, true)
    else (createDefaultStorageData now, false)

/-- The fresh default world record used by `migrateWorldData` fallbacks. -/
def defaultWorldRecord (now : Int) : JSVal :=
  vObj [("solvedPuzzles", vArr []),
        ("unlockedPuzzles", vArr [vStr "puzzle_1"]),
        ("lastUpdated", vNum now)]

/-- `migrations.migrateWorldData` (progressDataModels.js:364): invalid
records become the default record; valid records get their id lists
re-sanitized, falling back to the default record if sanitization throws. -/
def migrateWorldData (w : JSVal) (now : Int) : JSVal :=
  if ¬ validateStorageWorldData w then defaultWorldRecord now
  else
    match validatePuzzleIdArray (getField w "solvedPuzzles") with
    | .error _ => defaultWorldRecord now
    | .ok s =>
      match validatePuzzleIdArray (getField w "unlockedPuzzles") with
      | .error _ => defaultWorldRecord now
      | .ok u =>
        vObj [("solvedPuzzles", vArr (s.map vStr)),
              ("unlockedPuzzles", vArr (u.map vStr)),
              ("lastUpdated", getField w "lastUpdated")]

/-! ### Integrity layer (`dataIntegrity` in progressDataModels.js) -/

/-- `dataIntegrity.repairStorageData` (progressDataModels.js:401): total
rebuild — keep a string version (else current), rebuild metadata
(preserving a numeric `createdAt`), and rebuild `worlds` entrywise through
`validateWorldId` (skipping unusable ids) and `migrateWorldData`. -/
def repairStorageData (d : JSVal) (now : Int) : JSVal :=
  if ¬ (truthy d && typeofObject d) then createDefaultStorageData now
  else
    let version := if isStr (getField d "version") then getField d "version"
      else vStr CURRENT_SCHEMA_VERSION
    let createdAt := if isNum (getField (getField d "metadata") "createdAt")
      then getField (getField d "metadata") "createdAt" else vNum now
    let worldsIn := getField d "worlds"
    let worlds :=
      if truthy worldsIn && typeofObject worldsIn then
        (entriesOf worldsIn).foldl (fun acc e =>
          match validateWorldId (vStr e.1) with
          | .ok sk => upsertField acc sk (migrateWorldData e.2 now)
          | .error _ => acc) []
      else []
    vObj [("version", version),
          ("worlds", vObj worlds),
          ("metadata", vObj [("createdAt", createdAt), ("lastAccessed", vNum now)])]

/-- The `for (const puzzleId of worldData.solvedPuzzles)` loop of
`checkIntegrity`: one issue per solved entry absent from the unlocked
list. -/
def missingUnlockIssues (k : String) (up : JSVal) :
    List JSVal → Except String (List String)
  | [] => .ok []
  | p :: rest =>
    match includesE up p with
    | .error e => .error e
    | .ok has =>
      match missingUnlockIssues k up rest with
      | .error e => .error e
      | .ok there =>
        .ok ((if has then []
              else ["Solved puzzle " ++ jsToString p ++ " not unlocked in world: " ++ k])
             ++ there)

/-- Issues pushed by `checkIntegrity` for one `worlds` entry, in source
order: invalid id, invalid record shape, duplicate solved, duplicate
unlocked, then one issue per solved puzzle missing from the unlocked list. -/
def checkWorldIssues (k : String) (w : JSVal) : Except String (List String) :=
  let idIssue := match validateWorldId (vStr k) with
    | .ok _ => []
    | .error _ => ["Invalid world ID: " ++ k]
  let shapeIssue := if ¬ validateStorageWorldData w
    then ["Invalid world data for: " ++ k] else []
  match getFieldE w "solvedPuzzles" with
  | .error e => .error e
  | .ok sp =>
  match setFromE sp with
  | .error e => .error e
  | .ok solvedSet =>
  match getFieldE w "unlockedPuzzles" with
  | .error e => .error e
  | .ok up =>
  match setFromE up with
  | .error e => .error e
  | .ok unlockedSet =>
  match lengthOfE sp with
  | .error e => .error e
  | .ok spLen =>
  match lengthOfE up with
  | .error e => .error e
  | .ok upLen =>
  let dupSolved := if solvedSet.length ≠ spLen
    then ["Duplicate solved puzzles in world: " ++ k] else []
  let dupUnlocked := if unlockedSet.length ≠ upLen
    then ["Duplicate unlocked puzzles in world: " ++ k] else []
  match spreadE sp with
  | .error e => .error e
  | .ok spElems =>
  match missingUnlockIssues k up spElems with
  | .error e => .error e
  | .ok missing =>
    .ok (idIssue ++ shapeIssue ++ dupSolved ++ dupUnlocked ++ missing)

/-- The `checkIntegrity` loop over `Object.entries(data.worlds)`. -/
def checkWorlds : List (String × JSVal) → Except String (List String)
  | [] => .ok []
  | (k, w) :: rest =>
    match checkWorldIssues k w with
    | .error e => .error e
    | .ok here =>
      match checkWorlds rest with
      | .error e => .error e
      | .ok there => .ok (here ++ there)

/-- `dataIntegrity.checkIntegrity` (progressDataModels.js:435): read-only
diagnostic; a structurally invalid document yields the single top-level
issue, otherwise a version-mismatch issue plus the per-world issues. The
embedding is a pure function, matching the source's absence of mutation. -/
def checkIntegrity (d : JSVal) : Except String (List String) :=
  if ¬ validateStorageData d then .ok ["Invalid storage data structure"]
  else
    let verIssue := if isMigrationNeeded (getField d "version")
      then ["Version mismatch: " ++ jsToString (getField d "version") ++ " vs " ++
            CURRENT_SCHEMA_VERSION]
      else []
    match checkWorlds (entriesOf (getField d "worlds")) with
    | .ok ws => .ok (verIssue ++ ws)
    | .error e => .error e

/-! ### Persistence service (`src/utils/progressService.js`)

The service is modelled synchronously: `Date.now()` is the explicit `now`
parameter, `setTimeout` callbacks are recorded (debounce timers in
`pending`, retry timers as a counter) but not executed, and the `Promise`
object returned by `getStorageData`'s retry path is the value `vPromise`.
Subscriber notifications are collected as an `Event` list. -/

/-- A lowercase hexadecimal digit, for JSON `\u00XX` escapes. -/
def hexDigit (n : Nat) : Char :=
  if n < 10 then Char.ofNat (48 + n) else Char.ofNat (87 + n)

/-- One character of `JSON.stringify`'s string escaping: quote and
backslash get backslash escapes, the control characters with short forms
get those, any other control character becomes a `\u00XX` escape, and
every other character is emitted verbatim. -/
def jsonEscapeChar (c : Char) : String :=
  if c = '"' then "\\\""
  else if c = '\\' then "\\\\"
  else if c = '\x08' then "\\b"
  else if c = '\t' then "\\t"
  else if c = '\n' then "\\n"
  else if c = '\x0c' then "\\f"
  else if c = '\r' then "\\r"
  else if c.toNat < 32 then
    "\\u00" ++ String.mk [hexDigit (c.toNat / 16), hexDigit (c.toNat % 16)]
  else String.mk [c]

/-- `JSON.stringify`'s escaping over a string's characters. -/
def jsonEscape : List Char → String
  | [] => ""
  | c :: cs => jsonEscapeChar c ++ jsonEscape cs

/-- A JSON string literal: the escaped content between double quotes. -/
def jsonQuote (s : String) : String := "\"" ++ jsonEscape s.data ++ "\""

/-- `Array.prototype.join(sep)`: the comma joining `JSON.stringify`
performs between array elements and object properties. -/
def joinSep (sep : String) : List String → String
  | [] => ""
  | [a] => a
  | a :: b :: rest => a ++ sep ++ joinSep sep (b :: rest)

mutual

/-- `JSON.stringify` of a defined value, with no replacer: the `vUndef`
arm is the element-position rendering `null` that arrays give their
undefined entries (a top-level `undefined`, which serializes to no string
at all, is handled by `jsonStringifyOpt`); objects skip undefined-valued
properties, and objects with no enumerable own properties (the modelled
`Set` and `Promise` values) render as an empty object literal. -/
def jsonStringify : JSVal → String
  | vNull => "null"
  | vUndef => "null"
  | vBool b => if b then "true" else "false"
  | vNum n => toString n
  | vStr s => jsonQuote s
  | vArr xs => "[" ++ joinSep "," (jsonStringifyArr xs) ++ "]"
  | vObj fs => "\x7b" ++ joinSep "," (jsonStringifyFields fs) ++ "\x7d"
  | vSet _ => "\x7b\x7d"
  | vPromise => "\x7b\x7d"

/-- Array elements, in order; an undefined element serializes as `null`. -/
def jsonStringifyArr : List JSVal → List String
  | [] => []
  | x :: xs => jsonStringify x :: jsonStringifyArr xs

/-- Object properties, `"key":value`, skipping undefined-valued entries. -/
def jsonStringifyFields : List (String × JSVal) → List String
  | [] => []
  | (_, vUndef) :: rest => jsonStringifyFields rest
  | (k, v) :: rest => (jsonQuote k ++ ":" ++ jsonStringify v) :: jsonStringifyFields rest

end

/-- `JSON.stringify` including the top level: serializing `undefined`
itself yields no string. -/
def jsonStringifyOpt : JSVal → Option String
  | vUndef => none
  | v => some (jsonStringify v)

/-- The `maxSize` of `saveStorageData`'s size guard: 5MB
(progressService.js:490). -/
def maxStorageSize : Nat := 5 * 1024 * 1024

/-- Whether a document's serialized form passes the size guard:
`new Blob([jsonString]).size` is the UTF-8 byte length of the JSON text,
and the guard throws when it exceeds `maxSize`
(progressService.js:488-497). -/
def sizeOkay (d : JSVal) : Bool :=
  decide (((jsonStringifyOpt d).getD "").utf8ByteSize ≤ maxStorageSize)

/-- The raw `localStorage` slot for the progress key, seen through
`JSON.parse`: absent, unparseable bytes, or a parsed value. -/
inductive StoreCell where
  | absent
  | corrupt
  | val (v : JSVal)

/-- The mutable fields of `ProgressService` that the verified operations
touch: medium availability, the persisted slot, the in-memory fallback
document (`null` initially), the per-world debounce timers (`saveTimeouts`
keys) and a count of scheduled retry timers. -/
structure SvcState where
  available : Bool
  store : StoreCell
  inMemory : Option JSVal
  pending : List String
  retryTimers : Nat

/-- A notification delivered to subscribers: a progress-change event
(`notifyProgressChange`) or an error event (`notifyErrorListeners`),
recorded by its `ProgressErrorTypes` kind. -/
inductive Event where
  | progressChanged (worldId : JSVal) (progress : JSVal)
  | errorEmitted (kind : String)

/-- Whether an event is a progress-change notification. -/
def Event.isProgressChanged : Event → Bool
  | .progressChanged _ _ => true
  | _ => false

/-- The write of `saveStorageData` on a document that passed validation:
with the medium unavailable the document goes to the in-memory fallback;
otherwise the serialized size is checked against the 5MB guard
(progressService.js:488-497) and the document is written. An oversized
document makes the guard throw `STORAGE_QUOTA_EXCEEDED`, which the `catch`
hands to `handleStorageError`; that error's name and message match none of
the quota/security/corruption tests, so the unknown-error branch runs
`attemptStorageReset` — the key is removed and a fresh default document is
written (that small write passes the guard; the source routes it through
`saveStorageData` again) — an `UNKNOWN_ERROR` event is emitted, and since
the reset was handled and the initial `retryCount` 0 is below `maxRetries`
a backoff retry timer is scheduled and the call returns without
throwing. -/
def saveValidatedData (d : JSVal) (st : SvcState) (now : Int) :
    List Event × SvcState :=
  if ¬ st.available then ([], { st with inMemory := some d })
  else if sizeOkay d then ([], { st with store := .val d })
  else
    ([.errorEmitted "UNKNOWN_ERROR"],
     { st with store := .val (createDefaultStorageData now),
               retryTimers := st.retryTimers + 1 })

/-- `saveStorageData` (progressService.js:450): invalid data is notified
as a `VALIDATION_ERROR` and repaired once (the source's recursive call
re-validates the repaired document and saves it through the same
availability and size-guard logic); when even the repaired document fails
validation, the `ValidationError` is thrown after the notification. The
event list is reported on every path, including the throwing one. -/
def saveStorageData (d : JSVal) (st : SvcState) (now : Int) :
    List Event × Except String SvcState :=
  if validateStorageData d then
    let (evs, st2) := saveValidatedData d st now
    (evs, .ok st2)
  else
    let r := repairStorageData d now
    if validateStorageData r then
      let (evs, st2) := saveValidatedData r st now
      (.errorEmitted "VALIDATION_ERROR" :: evs, .ok st2)
    else
      ([.errorEmitted "VALIDATION_ERROR"], .error "Invalid data structure for storage")

/-- `getStorageData` (progressService.js:361). With the medium unavailable
it returns the in-memory document or a default. Otherwise: an absent key
is initialized by saving a default document, which is returned regardless
of how that save went; corrupt bytes throw `DATA_CORRUPTION`, which
`handleStorageError` repairs (`repairCorruptedData` saves the repair of
the unparseable — hence `null` — data) before the function returns its
retry `Promise`; an invalid document is repaired and saved (when the save
of the repaired document itself throws, the `catch` runs
`attemptStorageReset`, which resets the store to a fresh default, and
returns the retry `Promise`); a valid document with a stale version is
reset by `migrateToCurrentVersion`, saved and returned. Each branch's
events are the inner save's events followed by the branch's own
notification. -/
def getStorageData (st : SvcState) (now : Int) : SvcState × List Event × JSVal :=
  if ¬ st.available then
    (st, [], match st.inMemory with
      | some v => if truthy v then v else createDefaultStorageData now
      | none => createDefaultStorageData now)
  else match st.store with
  | .absent =>
    let d := createDefaultStorageData now
    (match saveStorageData d st now with
     | (evs, .ok st1) => (st1, evs, d)
     | (evs, .error _) =>
       ({ st with store := .val (createDefaultStorageData now) },
        evs ++ [.errorEmitted "UNKNOWN_ERROR"], vPromise))
  | .corrupt =>
    (match saveStorageData (repairStorageData vNull now) st now with
     | (evs, .ok st1) => (st1, evs ++ [.errorEmitted "DATA_CORRUPTION"], vPromise)
     | (evs, .error _) =>
       ({ st with available := false,
                  inMemory := some (createDefaultStorageData now) },
        evs ++ [.errorEmitted "DATA_CORRUPTION"], vPromise))
  | .val v =>
    if ¬ validateStorageData v then
      let r := repairStorageData v now
      (match saveStorageData r st now with
       | (evs, .ok st1) => (st1, evs ++ [.errorEmitted "VALIDATION_ERROR"], r)
       | (evs, .error _) =>
         ({ st with store := .val (createDefaultStorageData now) },
          evs ++ [.errorEmitted "UNKNOWN_ERROR"], vPromise))
    else
      match migrateToCurrentVersion v now with
      | (m, false) =>
        (match saveStorageData m st now with
         | (evs, .ok st1) => (st1, evs ++ [.errorEmitted "MIGRATION_ERROR"], m)
         | (evs, .error _) =>
           ({ st with store := .val (createDefaultStorageData now) },
            evs ++ [.errorEmitted "UNKNOWN_ERROR"], vPromise))
      | (_, true) => (st, [], v)

/-- The statement `data.worlds[sid] = record` on a document. -/
def setWorldField (data : JSVal) (sid : String) (record : JSVal) :
    Except String JSVal :=
  match getFieldE data "worlds" with
  | .error e => .error e
  | .ok ws =>
    match setFieldE ws sid record with
    | .error e => .error e
    | .ok ws2 => setFieldE data "worlds" ws2

/-- The statement `data.metadata.lastAccessed = Date.now()` on a document. -/
def setMetaLastAccessed (data : JSVal) (now : Int) : Except String JSVal :=
  match getFieldE data "metadata" with
  | .error e => .error e
  | .ok m =>
    match setFieldE m "lastAccessed" (vNum now) with
    | .error e => .error e
    | .ok m2 => setFieldE data "metadata" m2

/-- The `try` body of `getWorldProgress` (progressService.js:763): validate
the id, load the document, fall back to the default progress when the world
has no truthy record, repair-and-persist an invalid record, and transform
the record to application form. Errors propagate to the surrounding
`catch`. -/
def getWorldProgressBody (wid : JSVal) (st : SvcState) (now : Int) :
    SvcState × List Event × Except String JSVal :=
  match validateWorldId wid with
  | .error e => (st, [], .error e)
  | .ok sid =>
    let (st1, evs1, data) := getStorageData st now
    match (getFieldE data "worlds").bind (fun ws => getFieldE ws sid) with
    | .error e => (st1, evs1, .error e)
    | .ok w =>
      if ¬ truthy w then
        (st1, evs1, createDefaultWorldProgress (vStr sid) now)
      else if ¬ validateStorageWorldData w then
        let rp := migrateWorldData w now
        match setWorldField data sid rp with
        | .error e => (st1, evs1, .error e)
        | .ok data' =>
          match saveStorageData data' st1 now with
          | (evs2, .error e) => (st1, evs1 ++ evs2, .error e)
          | (evs2, .ok st2) =>
            (st2, evs1 ++ evs2 ++ [.errorEmitted "VALIDATION_ERROR"],
             transformFromStorageFormat (vStr sid) rp)
      else (st1, evs1, transformFromStorageFormat (vStr sid) w)

/-- `getWorldProgress` with its `catch`: on any failure it emits an error
event and returns `createDefaultWorldProgress(worldId)`, falling back to
the hardcoded minimal progress object when even that throws. -/
def getWorldProgress (wid : JSVal) (st : SvcState) (now : Int) :
    SvcState × List Event × JSVal :=
  match getWorldProgressBody wid st now with
  | (st', evs, .ok r) => (st', evs, r)
  | (st', evs, .error _) =>
    match createDefaultWorldProgress wid now with
    | .ok p => (st', evs ++ [.errorEmitted "VALIDATION_ERROR"], p)
    | .error _ =>
      (st', evs ++ [.errorEmitted "VALIDATION_ERROR"],
       vObj [("worldId", if truthy wid then wid else vStr "unknown"),
             ("solvedPuzzles", vSet []),
             ("unlockedPuzzles", vSet [vStr "puzzle_1"]),
             ("lastUpdated", vNum now),
             ("version", vStr CURRENT_SCHEMA_VERSION)])

/-- `_saveWorldProgressImmediate` (progressService.js:920), first
(synchronous) attempt: transform, load, splice the world record, stamp
`lastAccessed`, persist. Any failure inside `attemptSave` schedules a
backoff retry timer and returns without throwing, because the initial
`retryCount` 0 is below `maxRetries`. -/
def saveWorldProgressImmediate (sid : String) (progress : JSVal)
    (st : SvcState) (now : Int) : SvcState × List Event :=
  match transformToStorageFormat progress with
  | .error _ => ({ st with retryTimers := st.retryTimers + 1 }, [])
  | .ok sd =>
    let (st1, evs1, data) := getStorageData st now
    match (setWorldField data sid sd).bind (fun d1 => setMetaLastAccessed d1 now) with
    | .error _ => ({ st1 with retryTimers := st1.retryTimers + 1 }, evs1)
    | .ok d2 =>
      match saveStorageData d2 st1 now with
      | (evs2, .error _) => ({ st1 with retryTimers := st1.retryTimers + 1 }, evs1 ++ evs2)
      | (evs2, .ok st2) => (st2, evs1 ++ evs2)

/-- The object `{...progress, worldId: sanitizedWorldId}` built by
`saveWorldProgress` before sanitizing. -/
def mergedProgress (progress : JSVal) (sid : String) : JSVal :=
  vObj (upsertField (objSpread progress) "worldId" (vStr sid))

/-- The hardcoded safe progress object `saveWorldProgress` builds when
sanitization throws. -/
def safeFallbackProgress (sid : String) (now : Int) : JSVal :=
  vObj [("worldId", vStr sid),
        ("solvedPuzzles", vSet []),
        ("unlockedPuzzles", vSet [vStr "puzzle_1"]),
        ("lastUpdated", vNum now),
        ("version", vStr CURRENT_SCHEMA_VERSION)]

/-- `saveWorldProgress` (progressService.js:836): validates the id (an
invalid id is caught, notified and rethrown), sanitizes the merged progress
(falling back to the safe object if sanitization throws), then either runs
the immediate save and returns — without notifying — or resets the world's
debounce timer and synchronously notifies progress-change listeners with
the sanitized progress. -/
def saveWorldProgress (wid : JSVal) (progress : JSVal) (immediate : Bool)
    (st : SvcState) (now : Int) : SvcState × List Event × Except String Unit :=
  match validateWorldId wid with
  | .error e => (st, [.errorEmitted "VALIDATION_ERROR"], .error e)
  | .ok sid =>
    let (sanitized, evs0) :=
      match sanitizeWorldProgress (mergedProgress progress sid) now with
      | .ok p => (p, [])
      | .error _ => (safeFallbackProgress sid now, [Event.errorEmitted "VALIDATION_ERROR"])
    if immediate then
      let (st1, evs1) := saveWorldProgressImmediate sid sanitized st now
      (st1, evs0 ++ evs1, .ok ())
    else
      let st1 := { st with pending := (st.pending.filter (· ≠ sid)) ++ [sid] }
      (st1, evs0 ++ [Event.progressChanged (vStr sid) sanitized], .ok ())

/-- The reset record `{solvedPuzzles: [], unlockedPuzzles: ['puzzle_1'],
lastUpdated: Date.now()}` written by `resetWorldProgress`. -/
def resetRecord (now : Int) : JSVal :=
  vObj [("solvedPuzzles", vArr []),
        ("unlockedPuzzles", vArr [vStr "puzzle_1"]),
        ("lastUpdated", vNum now)]

/-- The progress object `resetWorldProgress` notifies listeners with. -/
def resetProgressObj (sid : String) (now : Int) : JSVal :=
  vObj [("worldId", vStr sid),
        ("solvedPuzzles", vSet []),
        ("unlockedPuzzles", vSet [vStr "puzzle_1"]),
        ("lastUpdated", vNum now),
        ("version", vStr CURRENT_SCHEMA_VERSION)]

/-- The progress-change notification the `catch` of `resetWorldProgress`
attempts with the raw world id before rethrowing. -/
def resetCatchNotify (wid : JSVal) (now : Int) : List Event :=
  match createDefaultWorldProgress wid now with
  | .ok p => [.progressChanged wid p]
  | .error _ => []

/-- `resetWorldProgress` (progressService.js:967): validates the id, loads
the document, replaces only this world's record with the reset record,
stamps `lastAccessed`, persists with no debounce, and notifies listeners
with the reset progress object. Its `catch` re-emits a caught
`ProgressError` under that error's own kind — the only `ProgressError`
that can propagate here is the `VALIDATION_ERROR` thrown by
`saveStorageData` — and wraps anything else (the id validation's plain
`Error`, the engine's `TypeError`s) as `UNKNOWN_ERROR`; it then attempts a
default-progress notification and rethrows to the caller. -/
def resetWorldProgress (wid : JSVal) (st : SvcState) (now : Int) :
    SvcState × List Event × Except String Unit :=
  match validateWorldId wid with
  | .error e => (st, [.errorEmitted "UNKNOWN_ERROR"] ++ resetCatchNotify wid now, .error e)
  | .ok sid =>
    let (st1, evs1, data) := getStorageData st now
    match (setWorldField data sid (resetRecord now)).bind
        (fun d1 => setMetaLastAccessed d1 now) with
    | .error e =>
      (st1, evs1 ++ [.errorEmitted "UNKNOWN_ERROR"] ++ resetCatchNotify wid now, .error e)
    | .ok d2 =>
      match saveStorageData d2 st1 now with
      | (evs2, .error e) =>
        (st1, evs1 ++ evs2 ++ [.errorEmitted "VALIDATION_ERROR"] ++
          resetCatchNotify wid now, .error e)
      | (evs2, .ok st2) =>
        (st2, evs1 ++ evs2 ++ [.progressChanged (vStr sid) (resetProgressObj sid now)],
         .ok ())

/-- A string already in the sanitizer's canonical form: non-empty and made
of `[A-Za-z0-9_-]` only. -/
def canonicalId (s : String) : Bool := s != "" && s.data.all allowedChar

/-- A list of values that are all canonical-id strings. -/
def allCanonical (l : List JSVal) : Bool :=
  l.all (fun x => match x with | vStr s => canonicalId s | _ => false)

/-- What the spec calls a usable progress object: a truthy object carrying
`Set`-valued puzzle collections and a numeric timestamp. -/
def isProgressShaped (r : JSVal) : Bool :=
  truthy r && typeofObject r &&
  (match getField r "solvedPuzzles" with | vSet _ => true | _ => false) &&
  (match getField r "unlockedPuzzles" with | vSet _ => true | _ => false) &&
  isNum (getField r "lastUpdated")

/-! ### Derived predicates and concrete documents used by the verification -/

/-- Whether the `worldId` carried by a raw progress value is usable: the
sanitizer accepts it (after the `progress.worldId || \'\'` fallback). -/
def worldIdUsable (p : JSVal) : Bool :=
  (validateWorldId (if truthy (getField p "worldId") then getField p "worldId"
    else vStr "")).toBool

/-- Whether a progress object carries a `Set`-valued `unlockedPuzzles`
containing `"puzzle_1"`. -/
def unlockedContainsPuzzle1 (r : JSVal) : Bool :=
  match getField r "unlockedPuzzles" with
  | vSet l => memJs (vStr "puzzle_1") l
  | _ => false

/-- The round trip of the spec: serialize a progress and read it back under
its own world id. -/
def roundTrip (p : JSVal) : Except String JSVal :=
  match transformToStorageFormat p with
  | .error e => .error e
  | .ok sd => transformFromStorageFormat (getField p "worldId") sd

/-- Whether the document `resetWorldProgress` hands to `saveStorageData` —
the loaded document with the target world's record reset and
`metadata.lastAccessed` stamped — stays within the 5MB size guard, so that
the save is the plain `localStorage.setItem`. -/
def resetUpdateWithinLimit (doc : JSVal) (sid : String) (now : Int) : Bool :=
  match (setWorldField doc sid (resetRecord now)).bind
      (fun d1 => setMetaLastAccessed d1 now) with
  | .ok d2 => sizeOkay d2
  | .error _ => true

/-- A fresh service state over an empty default document. -/
def defaultState : SvcState := ⟨true, .val (createDefaultStorageData 0), none, [], 0⟩

/-- A well-formed progress for world `w` used in the save examples. -/
def exProgress : JSVal :=
  vObj [("worldId", vStr "w"), ("solvedPuzzles", vSet []),
        ("unlockedPuzzles", vSet [vStr "puzzle_1"]), ("lastUpdated", vNum 3)]

/-- What `saveWorldProgress` sanitizes `exProgress` to (at clock 5). -/
def exSanitized : JSVal :=
  vObj [("worldId", vStr "w"), ("solvedPuzzles", vSet []),
        ("unlockedPuzzles", vSet [vStr "puzzle_1"]), ("lastUpdated", vNum 3),
        ("version", vStr CURRENT_SCHEMA_VERSION)]

/-- A valid current-version document whose world `w` has a stored record
with `unlockedPuzzles = ["a"]` and no `puzzle_1`. -/
def worldADoc : JSVal :=
  vObj [("version", vStr "1.0.0"),
        ("worlds", vObj [("w", vObj [("solvedPuzzles", vArr []),
          ("unlockedPuzzles", vArr [vStr "a"]), ("lastUpdated", vNum 0)])]),
        ("metadata", vObj [("createdAt", vNum 0), ("lastAccessed", vNum 0)])]

/-- Service state persisting `worldADoc`. -/
def worldAState : SvcState := ⟨true, .val worldADoc, none, [], 0⟩

/-- An object whose only content is an empty-string schema version. -/
def emptyVersionDoc : JSVal := vObj [("version", vStr "")]

/-- The corrupted document from the repository\'s own data-model test. -/
def corruptedTestDoc : JSVal :=
  vObj [("version", vNum 123), ("worlds", vNull), ("metadata", vStr "invalid")]

/-- The dirty progress input from the repository\'s sanitization test. -/
def exC5Input : JSVal :=
  vObj [("worldId", vStr "test-world"),
        ("solvedPuzzles", vArr [vStr "puzzle_1", vStr "invalid@puzzle", vStr "puzzle_2"]),
        ("unlockedPuzzles", vArr [vStr "puzzle_1", vStr "", vStr "puzzle_3"]),
        ("lastUpdated", vStr "invalid-timestamp")]

/-- The sanitized form of `exC5Input` (at clock 99). -/
def exC5Result : JSVal :=
  vObj [("worldId", vStr "test-world"),
        ("solvedPuzzles", vSet [vStr "puzzle_1", vStr "invalidpuzzle", vStr "puzzle_2"]),
        ("unlockedPuzzles", vSet [vStr "puzzle_1", vStr "puzzle_3"]),
        ("lastUpdated", vNum 99), ("version", vStr CURRENT_SCHEMA_VERSION)]

/-- A structurally valid progress whose `worldId` is the empty string. -/
def badRoundTripProgress : JSVal :=
  vObj [("worldId", vStr ""), ("solvedPuzzles", vSet []),
        ("unlockedPuzzles", vSet []), ("lastUpdated", vNum 0)]

/-- A canonical well-formed progress for the round-trip witness. -/
def goodRoundTripProgress : JSVal :=
  vObj [("worldId", vStr "w1"), ("solvedPuzzles", vSet [vStr "puzzle_1"]),
        ("unlockedPuzzles", vSet [vStr "puzzle_1", vStr "puzzle_2"]),
        ("lastUpdated", vNum 12345)]

/-- A structurally valid document at a stale schema version. -/
def staleDoc : JSVal :=
  vObj [("version", vStr "0.9.0"), ("worlds", vObj []),
        ("metadata", vObj [("createdAt", vNum 0), ("lastAccessed", vNum 0)])]

/-- A valid document with duplicate solved entries in world `w`. -/
def dupSolvedDoc : JSVal :=
  vObj [("version", vStr "1.0.0"),
        ("worlds", vObj [("w", vObj [("solvedPuzzles", vArr [vStr "a", vStr "a"]),
          ("unlockedPuzzles", vArr [vStr "a"]), ("lastUpdated", vNum 1)])]),
        ("metadata", vObj [("createdAt", vNum 0), ("lastAccessed", vNum 0)])]

/-- A valid document whose world `w` has a solved puzzle that is not
unlocked. -/
def missingUnlockDoc : JSVal :=
  vObj [("version", vStr "1.0.0"),
        ("worlds", vObj [("w", vObj [("solvedPuzzles", vArr [vStr "b"]),
          ("unlockedPuzzles", vArr [vStr "a"]), ("lastUpdated", vNum 1)])]),
        ("metadata", vObj [("createdAt", vNum 0), ("lastAccessed", vNum 0)])]

/-- The worlds map of the two-world reset example. -/
def ws9 : List (String × JSVal) :=
  [("w", vObj [("solvedPuzzles", vArr [vStr "x"]),
      ("unlockedPuzzles", vArr [vStr "x"]), ("lastUpdated", vNum 0)]),
   ("v", vObj [("solvedPuzzles", vArr []),
      ("unlockedPuzzles", vArr [vStr "y"]), ("lastUpdated", vNum 1)])]

/-- A valid two-world document for the reset example. -/
def doc9 : JSVal :=
  vObj [("version", vStr "1.0.0"), ("worlds", vObj ws9),
        ("metadata", vObj [("createdAt", vNum 0), ("lastAccessed", vNum 0)])]

/-- Service state persisting `doc9`. -/
def st9 : SvcState := ⟨true, .val doc9, none, [], 0⟩

/-- Service state persisting `emptyVersionDoc` wrapped as a document; its
repair keeps the falsy version, so reads go down the reset-and-retry path. -/
def throwState : SvcState := ⟨true, .val emptyVersionDoc, none, [], 0⟩

/-- Six million characters `p`: a puzzle id whose serialization alone
exceeds the 5MB size guard. -/
def bigP : String := String.mk (List.replicate 6000000 'p')

/-- A structurally valid world record carrying the oversized puzzle id. -/
def bigRec : JSVal :=
  vObj [("solvedPuzzles", vArr []),
        ("unlockedPuzzles", vArr [vStr bigP]),
        ("lastUpdated", vNum 1)]

/-- A valid current-version document whose world `v` carries the oversized
record next to a small world `w`. -/
def bigDoc : JSVal :=
  vObj [("version", vStr "1.0.0"),
        ("worlds", vObj [("v", bigRec),
          ("w", vObj [("solvedPuzzles", vArr []),
                      ("unlockedPuzzles", vArr [vStr "puzzle_1"]),
                      ("lastUpdated", vNum 0)])]),
        ("metadata", vObj [("createdAt", vNum 0), ("lastAccessed", vNum 0)])]

/-- Service state persisting the oversized document. -/
def bigState : SvcState := ⟨true, .val bigDoc, none, [], 0⟩

/-- The document `resetWorldProgress (vStr "w") bigState 5` hands to
`saveStorageData`: world `w` reset, `lastAccessed` stamped, world `v`
still carrying the oversized record. -/
def bigD2 : JSVal :=
  vObj [("version", vStr "1.0.0"),
        ("worlds", vObj [("v", bigRec), ("w", resetRecord 5)]),
        ("metadata", vObj [("createdAt", vNum 0), ("lastAccessed", vNum 5)])]

/-! ### Basic lemmas about the value model -/

/-- `jsBeq` against a string literal decides equality with that string. -/
theorem jsBeq_vStr_iff (x : JSVal) (s : String) :
    jsBeq x (vStr s) = true ↔ x = vStr s := by
  cases x <;> simp [jsBeq]

/-- `memJs` of a string value is list membership. -/
theorem memJs_vStr_iff (s : String) (l : List JSVal) :
    memJs (vStr s) l = true ↔ vStr s ∈ l := by
  simp only [memJs, List.any_eq_true]
  constructor
  · rintro ⟨y, hy, hb⟩
    exact (jsBeq_vStr_iff y s).mp hb ▸ hy
  · intro h
    exact ⟨vStr s, h, (jsBeq_vStr_iff (vStr s) s).mpr rfl⟩

/-- Deduplication against a `seen` accumulator: a string value is in the
result iff it is in the input and not already seen. -/
theorem memJs_dedupGo (s : String) :
    ∀ (l seen : List JSVal),
      memJs (vStr s) (dedupGo seen l) = (memJs (vStr s) l && !memJs (vStr s) seen) := by
  intro l
  induction l with
  | nil => intro seen; simp [dedupGo, memJs]
  | cons x xs ih =>
    intro seen
    have hcons : ∀ (y : JSVal) (m : List JSVal),
        memJs (vStr s) (y :: m) = (jsBeq y (vStr s) || memJs (vStr s) m) := by
      intro y m; simp [memJs, List.any_cons]
    cases hxseen : memJs x seen with
    | true =>
      have hstep : dedupGo seen (x :: xs) = dedupGo seen xs := by
        simp [dedupGo, hxseen]
      rw [hstep, ih seen, hcons]
      cases hbv : jsBeq x (vStr s) with
      | true =>
        have hx : x = vStr s := (jsBeq_vStr_iff x s).mp hbv
        subst hx
        simp_all
      | false => simp
    | false =>
      have hstep : dedupGo seen (x :: xs) = x :: dedupGo (x :: seen) xs := by
        simp [dedupGo, hxseen]
      rw [hstep, hcons, ih (x :: seen), hcons, hcons]
      cases hbv : jsBeq x (vStr s) with
      | true =>
        have hx : x = vStr s := (jsBeq_vStr_iff x s).mp hbv
        subst hx
        simp_all
      | false => simp [hbv]

/-- `new Set` membership for string values agrees with the input list. -/
theorem memJs_jsDedup (s : String) (l : List JSVal) :
    memJs (vStr s) (jsDedup l) = memJs (vStr s) l := by
  rw [jsDedup, memJs_dedupGo]
  simp [memJs]

/-- Membership in a deduplicated list, as plain list membership. -/
theorem mem_jsDedup_iff (s : String) (l : List JSVal) :
    vStr s ∈ jsDedup l ↔ vStr s ∈ l := by
  rw [← memJs_vStr_iff, ← memJs_vStr_iff, memJs_jsDedup]

/-! ### Canonical identifiers -/

/-- Characters kept by the sanitizer are not trimmed as whitespace. -/
theorem ws_not_allowed (c : Char) (h : wsChar c = true) : allowedChar c = false := by
  simp only [wsChar, Bool.or_eq_true, decide_eq_true_eq] at h
  rcases h with ((((h | h) | h) | h) | h) | h <;> subst h <;> decide

/-- Contrapositive of `ws_not_allowed`. -/
theorem allowed_not_ws (c : Char) (h : allowedChar c = true) : wsChar c = false := by
  cases hw : wsChar c with
  | false => rfl
  | true => rw [ws_not_allowed c hw] at h; cases h

/-- `dropWhile` is the identity when the predicate holds nowhere. -/
theorem dropWhile_all_false {p : Char → Bool} :
    ∀ l : List Char, (∀ c ∈ l, p c = false) → l.dropWhile p = l := by
  intro l h
  cases l with
  | nil => rfl
  | cons c cs =>
    simp [List.dropWhile_cons, h c (List.mem_cons_self c cs)]

/-- Rebuilding a string from its character list. -/
theorem string_mk_data (s : String) : String.mk s.data = s := rfl

/-- Trimming is the identity on canonical ids. -/
theorem jsTrim_canonical (s : String) (h : canonicalId s = true) : jsTrim s = s := by
  have hall : ∀ c ∈ s.data, allowedChar c = true := by
    have := (Bool.and_eq_true _ _).mp h
    exact fun c hc => (List.all_eq_true.mp this.2) c hc
  have hws : ∀ c ∈ s.data, wsChar c = false :=
    fun c hc => allowed_not_ws c (hall c hc)
  have h1 : s.data.dropWhile wsChar = s.data := dropWhile_all_false _ hws
  have hws' : ∀ c ∈ s.data.reverse, wsChar c = false :=
    fun c hc => hws c (List.mem_reverse.mp hc)
  have h2 : s.data.reverse.dropWhile wsChar = s.data.reverse :=
    dropWhile_all_false _ hws'
  unfold jsTrim
  rw [h1, h2, List.reverse_reverse, string_mk_data]

/-- Stripping is the identity on canonical ids. -/
theorem stripId_canonical (s : String) (h : canonicalId s = true) : stripId s = s := by
  have hall : ∀ c ∈ s.data, allowedChar c = true := by
    have := (Bool.and_eq_true _ _).mp h
    exact fun c hc => (List.all_eq_true.mp this.2) c hc
  unfold stripId
  rw [List.filter_eq_self.mpr hall, string_mk_data]

/-- A canonical id is non-empty. -/
theorem canonical_ne_empty (s : String) (h : canonicalId s = true) : s ≠ "" := by
  have := (Bool.and_eq_true _ _).mp h
  simpa using this.1

/-- `validateWorldId` accepts a canonical id unchanged. -/
theorem validateWorldId_canonical (s : String) (h : canonicalId s = true) :
    validateWorldId (vStr s) = .ok s := by
  simp only [validateWorldId]
  rw [jsTrim_canonical s h, stripId_canonical s h]
  rw [if_neg (canonical_ne_empty s h), if_neg (canonical_ne_empty s h)]

/-- `validatePuzzleId` accepts a canonical id unchanged. -/
theorem validatePuzzleId_canonical (s : String) (h : canonicalId s = true) :
    validatePuzzleId (vStr s) = .ok s := by
  simp only [validatePuzzleId]
  rw [jsTrim_canonical s h, stripId_canonical s h]
  rw [if_neg (canonical_ne_empty s h), if_neg (canonical_ne_empty s h)]

/-- The output of `validateWorldId` is canonical. -/
theorem validateWorldId_out_canonical (v : JSVal) (sid : String)
    (h : validateWorldId v = .ok sid) : canonicalId sid = true := by
  cases v with
  | vStr s =>
    simp only [validateWorldId] at h
    by_cases h1 : jsTrim s = ""
    · rw [if_pos h1] at h; cases h
    · rw [if_neg h1] at h
      by_cases h2 : stripId (jsTrim s) = ""
      · rw [if_pos h2] at h; cases h
      · rw [if_neg h2] at h
        cases h
        unfold canonicalId
        refine (Bool.and_eq_true _ _).mpr ⟨by simpa using h2, ?_⟩
        refine List.all_eq_true.mpr ?_
        intro c hc
        unfold stripId at hc
        exact (List.mem_filter.mp hc).2
  | vNull => cases h
  | vUndef => cases h
  | vBool b => cases h
  | vNum n => cases h
  | vArr xs => cases h
  | vObj fs => cases h
  | vSet xs => cases h
  | vPromise => cases h

/-- `validateWorldId` is idempotent on its own output. -/
theorem validateWorldId_idem (v : JSVal) (sid : String)
    (h : validateWorldId v = .ok sid) : validateWorldId (vStr sid) = .ok sid :=
  validateWorldId_canonical sid (validateWorldId_out_canonical v sid h)

/-- Sanitizing a list of already-canonical id strings keeps it unchanged. -/
theorem validatePuzzleIdArrayL_canonical :
    ∀ l : List JSVal, allCanonical l = true →
      ∃ ss : List String, validatePuzzleIdArrayL l = .ok ss ∧ ss.map vStr = l := by
  intro l
  induction l with
  | nil => intro _; exact ⟨[], rfl, rfl⟩
  | cons x xs ih =>
    intro h
    rw [allCanonical, List.all_cons, Bool.and_eq_true] at h
    obtain ⟨hx, hxs⟩ := h
    obtain ⟨ss, hss, hmap⟩ := ih hxs
    cases x with
    | vStr s =>
      have hcan : canonicalId s = true := hx
      refine ⟨s :: ss, ?_, by simp [hmap]⟩
      simp only [validatePuzzleIdArrayL]
      rw [if_neg (by rw [jsTrim_canonical s hcan]; exact canonical_ne_empty s hcan)]
      rw [validatePuzzleId_canonical s hcan, hss]
      rfl
    | vNull => cases hx
    | vUndef => cases hx
    | vBool b => cases hx
    | vNum n => cases hx
    | vArr l2 => cases hx
    | vObj l2 => cases hx
    | vSet l2 => cases hx
    | vPromise => cases hx

/-! ### Destructor lemmas for the validators -/

/-- `isArr` characterization. -/
theorem isArr_iff (v : JSVal) : isArr v = true ↔ ∃ xs, v = vArr xs := by
  cases v <;> simp [isArr]

/-- `isNum` characterization. -/
theorem isNum_iff (v : JSVal) : isNum v = true ↔ ∃ n, v = vNum n := by
  cases v <;> simp [isNum]

/-- `isStr` characterization. -/
theorem isStr_iff (v : JSVal) : isStr v = true ↔ ∃ s, v = vStr s := by
  cases v <;> simp [isStr]

/-- A truthy value supports property reads without throwing. -/
theorem getFieldE_truthy (v : JSVal) (k : String) (h : truthy v = true) :
    getFieldE v k = .ok (getField v k) := by
  cases v <;> first | rfl | cases h

/-- A truthy value whose `createdAt`-style field reads as a number must be
a plain object (every other value yields `undefined` on reads). -/
theorem field_forces_vObj (v : JSVal) (k : String)
    (h : getField v k ≠ vUndef) : ∃ fs, v = vObj fs := by
  cases v with
  | vObj fs => exact ⟨fs, rfl⟩
  | vNull => exact absurd rfl h
  | vUndef => exact absurd rfl h
  | vBool b => exact absurd rfl h
  | vNum n => exact absurd rfl h
  | vStr s => exact absurd rfl h
  | vArr xs => exact absurd rfl h
  | vSet xs => exact absurd rfl h
  | vPromise => exact absurd rfl h

/-! ### Lookup/upsert lemmas -/

/-- Looking up the upserted key. -/
theorem lookupField_upsert_self (fs : List (String × JSVal)) (k : String) (v : JSVal) :
    lookupField (upsertField fs k v) k = some v := by
  induction fs with
  | nil => simp [upsertField, lookupField]
  | cons e rest ih =>
    obtain ⟨k', v'⟩ := e
    by_cases hk : k' = k
    · subst hk; simp [upsertField, lookupField]
    · simp [upsertField, lookupField, hk, ih]

/-- Looking up a different key after an upsert. -/
theorem lookupField_upsert_ne (fs : List (String × JSVal)) (k k' : String) (v : JSVal)
    (h : k' ≠ k) : lookupField (upsertField fs k v) k' = lookupField fs k' := by
  induction fs with
  | nil => simp [upsertField, lookupField, Ne.symm h]
  | cons e rest ih =>
    obtain ⟨k0, v0⟩ := e
    by_cases hk : k0 = k
    · subst hk
      simp [upsertField, lookupField, Ne.symm h]
    · simp [upsertField, lookupField, hk, ih]

/-- `getField` after a `setFieldE`-style object update, same key. -/
theorem getField_upsert_self (fs : List (String × JSVal)) (k : String) (v : JSVal) :
    getField (vObj (upsertField fs k v)) k = v := by
  simp [getField, lookupField_upsert_self]

/-- `getField` after an object update, different key. -/
theorem getField_upsert_ne (fs : List (String × JSVal)) (k k' : String) (v : JSVal)
    (h : k' ≠ k) : getField (vObj (upsertField fs k v)) k' = getField (vObj fs) k' := by
  simp [getField, lookupField_upsert_ne fs k k' v h]

/-- An upsert with a value satisfying `P` preserves "all field values
satisfy `P`". -/
theorem upsert_preserves_all (P : JSVal → Bool) :
    ∀ (fs : List (String × JSVal)) (k : String) (v : JSVal),
      (∀ e ∈ fs, P e.2 = true) → P v = true →
      ∀ e ∈ upsertField fs k v, P e.2 = true := by
  intro fs
  induction fs with
  | nil =>
    intro k v _ hv e he
    simp only [upsertField, List.mem_singleton] at he
    subst he; exact hv
  | cons e0 rest ih =>
    obtain ⟨k0, v0⟩ := e0
    intro k v hall hv e he
    by_cases hk : k0 = k
    · subst hk
      simp only [upsertField, if_pos rfl, List.mem_cons] at he
      cases he with
      | head => exact hv
      | tail _ h1 => exact hall _ (List.mem_cons_of_mem _ h1)
    · simp only [upsertField, if_neg hk] at he
      cases he with
      | head => exact hall _ (List.mem_cons_self _ _)
      | tail _ h1 => exact ih k v (fun e' he' => hall e' (List.mem_cons_of_mem _ he')) hv _ h1

/-! ### Validity of migrated and repaired data -/

/-- Fields guaranteed by `validateStorageWorldData`. -/
theorem validateStorageWorldData_fields (w : JSVal)
    (h : validateStorageWorldData w = true) :
    truthy w = true ∧
    (∃ xs, getField w "solvedPuzzles" = vArr xs) ∧
    (∃ ys, getField w "unlockedPuzzles" = vArr ys) ∧
    (∃ n, getField w "lastUpdated" = vNum n) := by
  rw [validateStorageWorldData] at h
  simp only [Bool.and_eq_true] at h
  exact ⟨h.1.1.1.1, (isArr_iff _).mp h.1.1.2, (isArr_iff _).mp h.1.2, (isNum_iff _).mp h.2⟩

/-- A record literal with array fields and a numeric timestamp validates. -/
theorem validateStorageWorldData_build (xs ys : List JSVal) (lu : JSVal)
    (hlu : isNum lu = true) :
    validateStorageWorldData (vObj [("solvedPuzzles", vArr xs),
      ("unlockedPuzzles", vArr ys), ("lastUpdated", lu)]) = true := by
  simp [validateStorageWorldData, getField, lookupField, truthy, typeofObject, isArr, hlu]

/-- The default world record validates. -/
theorem defaultWorldRecord_valid (now : Int) :
    validateStorageWorldData (defaultWorldRecord now) = true := rfl

/-- `migrateWorldData` always yields a structurally valid record. -/
theorem migrateWorldData_valid (w : JSVal) (now : Int) :
    validateStorageWorldData (migrateWorldData w now) = true := by
  rw [migrateWorldData]
  by_cases hw : validateStorageWorldData w = true
  · rw [if_neg (by simp [hw])]
    obtain ⟨-, -, -, n, hn⟩ := validateStorageWorldData_fields w hw
    cases hs : validatePuzzleIdArray (getField w "solvedPuzzles") with
    | error e => exact defaultWorldRecord_valid now
    | ok s =>
      cases hu : validatePuzzleIdArray (getField w "unlockedPuzzles") with
      | error e => exact defaultWorldRecord_valid now
      | ok u => exact validateStorageWorldData_build _ _ _ (by rw [hn]; rfl)
  · rw [if_pos (by simp [hw])]
    exact defaultWorldRecord_valid now

/-- The worlds map built by `repairStorageData` contains only valid
records. -/
theorem repairWorlds_all (now : Int) :
    ∀ (entries acc : List (String × JSVal)),
      (∀ e ∈ acc, validateStorageWorldData e.2 = true) →
      ∀ e ∈ entries.foldl (fun acc e =>
          match validateWorldId (vStr e.1) with
          | .ok sk => upsertField acc sk (migrateWorldData e.2 now)
          | .error _ => acc) acc,
        validateStorageWorldData e.2 = true := by
  intro entries
  induction entries with
  | nil => intro acc hacc e he; exact hacc e he
  | cons e0 rest ih =>
    intro acc hacc e he
    rw [List.foldl_cons] at he
    cases hid : validateWorldId (vStr e0.1) with
    | ok sk =>
      rw [hid] at he
      exact ih _ (upsert_preserves_all _ acc sk _ hacc (migrateWorldData_valid e0.2 now)) e he
    | error msg =>
      rw [hid] at he
      exact ih acc hacc e he

/-- The default storage document is valid. -/
theorem createDefaultStorageData_valid (now : Int) :
    validateStorageData (createDefaultStorageData now) = true := rfl

/-- A document literal with a truthy string version, an object worlds map
of valid records and numeric metadata timestamps validates. -/
theorem validateStorageData_build (ver : JSVal) (ws : List (String × JSVal))
    (ca la : JSVal) (hv1 : truthy ver = true) (hv2 : isStr ver = true)
    (hca : isNum ca = true) (hla : isNum la = true)
    (hws : ∀ e ∈ ws, validateStorageWorldData e.2 = true) :
    validateStorageData (vObj [("version", ver), ("worlds", vObj ws),
      ("metadata", vObj [("createdAt", ca), ("lastAccessed", la)])]) = true := by
  rw [validateStorageData]
  have hget1 : getField (vObj [("version", ver), ("worlds", vObj ws),
      ("metadata", vObj [("createdAt", ca), ("lastAccessed", la)])]) "version" = ver := by
    simp [getField, lookupField]
  have hget2 : getField (vObj [("version", ver), ("worlds", vObj ws),
      ("metadata", vObj [("createdAt", ca), ("lastAccessed", la)])]) "worlds" = vObj ws := by
    simp [getField, lookupField]
  have hget3 : getField (vObj [("version", ver), ("worlds", vObj ws),
      ("metadata", vObj [("createdAt", ca), ("lastAccessed", la)])]) "metadata" =
      vObj [("createdAt", ca), ("lastAccessed", la)] := by
    simp [getField, lookupField]
  rw [hget1, hget2, hget3]
  have hmca : getField (vObj [("createdAt", ca), ("lastAccessed", la)]) "createdAt" = ca := by
    simp [getField, lookupField]
  have hmla : getField (vObj [("createdAt", ca), ("lastAccessed", la)]) "lastAccessed" = la := by
    simp [getField, lookupField]
  rw [hmca, hmla]
  simp [typeofObject, entriesOf, hv1, hv2, hca, hla, List.all_eq_true]
  exact ⟨⟨⟨rfl, rfl⟩, rfl⟩, fun a b hab => hws (a, b) hab⟩

/-- Amended totality of repair: unless the input carries the empty-string
version (which is preserved verbatim but falsy, hence rejected by
validation), the repaired document validates. -/
theorem repairStorageData_valid (x : JSVal) (now : Int)
    (h : getField x "version" ≠ vStr "") :
    validateStorageData (repairStorageData x now) = true := by
  rw [repairStorageData]
  by_cases hguard : (truthy x && typeofObject x) = true
  · rw [if_neg (by simp [hguard])]
    have hworlds : ∀ e ∈ (if truthy (getField x "worlds") && typeofObject (getField x "worlds") then
        (entriesOf (getField x "worlds")).foldl (fun acc e =>
          match validateWorldId (vStr e.1) with
          | .ok sk => upsertField acc sk (migrateWorldData e.2 now)
          | .error _ => acc) []
      else []), validateStorageWorldData e.2 = true := by
      split
      · exact repairWorlds_all now _ [] (by intro e he; cases he)
      · intro e he; cases he
    have hver : truthy (if isStr (getField x "version") then getField x "version"
        else vStr CURRENT_SCHEMA_VERSION) = true ∧
        isStr (if isStr (getField x "version") then getField x "version"
        else vStr CURRENT_SCHEMA_VERSION) = true := by
      by_cases hs : isStr (getField x "version") = true
      · obtain ⟨s, hsv⟩ := (isStr_iff _).mp hs
        rw [if_pos hs, hsv]
        have hne : s ≠ "" := by
          intro hcon; exact h (by rw [hsv, hcon])
        exact ⟨by simp [truthy, hne], rfl⟩
      · rw [if_neg hs]; exact ⟨rfl, rfl⟩
    have hca : isNum (if isNum (getField (getField x "metadata") "createdAt")
        then getField (getField x "metadata") "createdAt" else vNum now) = true := by
      by_cases hc : isNum (getField (getField x "metadata") "createdAt") = true
      · rw [if_pos hc]; exact hc
      · rw [if_neg hc]; rfl
    exact validateStorageData_build _ _ _ _ hver.1 hver.2 hca rfl hworlds
  · rw [if_pos (by simp at hguard ⊢; exact hguard)]
    exact createDefaultStorageData_valid now

/-! ### Shape of returned progress objects -/

/-- Fields guaranteed by `validateStorageData`. -/
theorem validateStorageData_fields (d : JSVal) (h : validateStorageData d = true) :
    truthy d = true ∧ typeofObject d = true ∧
    truthy (getField d "version") = true ∧ isStr (getField d "version") = true ∧
    truthy (getField d "worlds") = true ∧ typeofObject (getField d "worlds") = true ∧
    truthy (getField d "metadata") = true ∧ typeofObject (getField d "metadata") = true ∧
    isNum (getField (getField d "metadata") "createdAt") = true ∧
    isNum (getField (getField d "metadata") "lastAccessed") = true ∧
    ∀ e ∈ entriesOf (getField d "worlds"), validateStorageWorldData e.2 = true := by
  rw [validateStorageData] at h
  simp only [Bool.and_eq_true] at h
  obtain ⟨⟨⟨⟨⟨⟨⟨⟨⟨⟨h1, h2⟩, h3⟩, h4⟩, h5⟩, h6⟩, h7⟩, h8⟩, h9⟩, h10⟩, h11⟩ := h
  exact ⟨h1, h2, h3, h6, h4, h7, h5, h8, h9, h10, List.all_eq_true.mp h11⟩

/-- A successful `transformFromStorageFormat` yields a shaped progress
object. -/
theorem transformFromStorageFormat_shape (wid sd : JSVal) (r : JSVal)
    (h : transformFromStorageFormat wid sd = .ok r) : isProgressShaped r = true := by
  rw [transformFromStorageFormat] at h
  by_cases hv : validateStorageWorldData sd = true
  · rw [if_neg (by simp [hv])] at h
    obtain ⟨-, -, -, n, hn⟩ := validateStorageWorldData_fields sd hv
    cases h1 : validateWorldId wid with
    | error e => rw [h1] at h; cases h
    | ok sid =>
      rw [h1] at h
      cases h2 : validatePuzzleIdArray (getField sd "solvedPuzzles") with
      | error e => rw [h2] at h; cases h
      | ok solved =>
        rw [h2] at h
        cases h3 : validatePuzzleIdArray (getField sd "unlockedPuzzles") with
        | error e => rw [h3] at h; cases h
        | ok unlocked =>
          rw [h3] at h
          cases h
          rw [hn]
          rfl
  · rw [if_pos (by simp [hv])] at h; cases h

/-- A successful `createDefaultWorldProgress` is the default literal. -/
theorem createDefaultWorldProgress_ok (wid : JSVal) (now : Int) (p : JSVal)
    (h : createDefaultWorldProgress wid now = .ok p) :
    ∃ sid, validateWorldId wid = .ok sid ∧
      p = vObj [("worldId", vStr sid), ("solvedPuzzles", vSet []),
                ("unlockedPuzzles", vSet [vStr "puzzle_1"]),
                ("lastUpdated", vNum now), ("version", vStr CURRENT_SCHEMA_VERSION)] := by
  rw [createDefaultWorldProgress] at h
  cases h1 : validateWorldId wid with
  | error e => rw [h1] at h; cases h
  | ok sid => rw [h1] at h; cases h; exact ⟨sid, rfl, rfl⟩

/-- The default progress object is shaped. -/
theorem createDefaultWorldProgress_shape (wid : JSVal) (now : Int) (p : JSVal)
    (h : createDefaultWorldProgress wid now = .ok p) : isProgressShaped p = true := by
  obtain ⟨sid, -, hp⟩ := createDefaultWorldProgress_ok wid now p h
  subst hp
  rfl

/-! ### Behaviour of `getStorageData` and `saveStorageData` -/

/-- Progress-change-freeness is preserved by event-list concatenation. -/
theorem noProg_append (l1 l2 : List Event)
    (h1 : (l1.any Event.isProgressChanged) = false)
    (h2 : (l2.any Event.isProgressChanged) = false) :
    ((l1 ++ l2).any Event.isProgressChanged) = false := by
  rw [List.any_append, h1, h2]
  rfl

/-- The post-validation write never emits progress-change events. -/
theorem saveValidatedData_no_progress_events (d : JSVal) (st : SvcState) (now : Int) :
    (((saveValidatedData d st now).1).any Event.isProgressChanged) = false := by
  rw [saveValidatedData]
  split
  · rfl
  · split
    · rfl
    · rfl

/-- On an available medium, a valid document within the size guard is
written as-is, with no events and no retry timer. -/
theorem saveValidatedData_write (d : JSVal) (st : SvcState) (now : Int)
    (hav : st.available = true) (hsz : sizeOkay d = true) :
    saveValidatedData d st now = ([], { st with store := .val d }) := by
  rw [saveValidatedData, if_neg (by simp [hav]), if_pos hsz]

/-- On an available medium, a valid document that violates the size guard
is replaced by a fresh default in the store; an `UNKNOWN_ERROR` event and
a retry timer are the only other effects, and the call still succeeds. -/
theorem saveValidatedData_oversized (d : JSVal) (st : SvcState) (now : Int)
    (hav : st.available = true) (hsz : sizeOkay d = false) :
    saveValidatedData d st now =
      ([.errorEmitted "UNKNOWN_ERROR"],
       { st with store := .val (createDefaultStorageData now),
                 retryTimers := st.retryTimers + 1 }) := by
  rw [saveValidatedData, if_neg (by simp [hav]), if_neg (by simp [hsz])]

/-- A valid document within the size guard is written as-is by
`saveStorageData` on an available medium. -/
theorem saveStorageData_ok_of_valid (d : JSVal) (st : SvcState) (now : Int)
    (h : validateStorageData d = true) (hav : st.available = true)
    (hsz : sizeOkay d = true) :
    saveStorageData d st now = ([], .ok { st with store := .val d }) := by
  rw [saveStorageData, if_pos h, saveValidatedData_write d st now hav hsz]

/-- A valid document that violates the size guard makes `saveStorageData`
reset the store to a fresh default, emit an `UNKNOWN_ERROR` event,
schedule a retry timer and return without throwing. -/
theorem saveStorageData_oversized (d : JSVal) (st : SvcState) (now : Int)
    (hval : validateStorageData d = true) (hav : st.available = true)
    (hsz : sizeOkay d = false) :
    saveStorageData d st now =
      ([.errorEmitted "UNKNOWN_ERROR"],
       .ok { st with store := .val (createDefaultStorageData now),
                     retryTimers := st.retryTimers + 1 }) := by
  rw [saveStorageData, if_pos hval, saveValidatedData_oversized d st now hav hsz]

/-- Storage writes never emit progress-change notifications, on any path
including the throwing one. -/
theorem saveStorageData_no_progress_events (d : JSVal) (st : SvcState) (now : Int) :
    (((saveStorageData d st now).1).any Event.isProgressChanged) = false := by
  rw [saveStorageData]
  split
  · rcases hw : saveValidatedData d st now with ⟨evs, st2⟩
    have h := saveValidatedData_no_progress_events d st now
    rw [hw] at h
    exact h
  · dsimp only
    split
    · rcases hw : saveValidatedData (repairStorageData d now) st now with ⟨evs, st2⟩
      have h := saveValidatedData_no_progress_events (repairStorageData d now) st now
      rw [hw] at h
      simp [Event.isProgressChanged, h]
    · rfl

/-- `getStorageData` never emits progress-change notifications. -/
theorem getStorageData_no_progress_events (st : SvcState) (now : Int) :
    ((getStorageData st now).2.1.any Event.isProgressChanged) = false := by
  rw [getStorageData]
  split
  · rfl
  · cases hstore : st.store with
    | absent =>
      dsimp only
      rcases hs : saveStorageData (createDefaultStorageData now) st now with ⟨evs, res⟩
      have h := saveStorageData_no_progress_events (createDefaultStorageData now) st now
      rw [hs] at h
      cases res with
      | ok st1 => exact h
      | error e => exact noProg_append _ _ h (by rfl)
    | corrupt =>
      dsimp only
      rcases hs : saveStorageData (repairStorageData vNull now) st now with ⟨evs, res⟩
      have h := saveStorageData_no_progress_events (repairStorageData vNull now) st now
      rw [hs] at h
      cases res with
      | ok st1 => exact noProg_append _ _ h (by rfl)
      | error e => exact noProg_append _ _ h (by rfl)
    | val v =>
      dsimp only
      by_cases hval : validateStorageData v = true
      · rw [if_neg (by simp [hval])]
        rcases hm : migrateToCurrentVersion v now with ⟨m, flag⟩
        cases flag with
        | true => rfl
        | false =>
          dsimp only
          rcases hs : saveStorageData m st now with ⟨evs, res⟩
          have h := saveStorageData_no_progress_events m st now
          rw [hs] at h
          cases res with
          | ok st1 => exact noProg_append evs [Event.errorEmitted "MIGRATION_ERROR"] h rfl
          | error e => exact noProg_append evs [Event.errorEmitted "UNKNOWN_ERROR"] h rfl
      · rw [if_pos hval]
        rcases hs : saveStorageData (repairStorageData v now) st now with ⟨evs, res⟩
        have h := saveStorageData_no_progress_events (repairStorageData v now) st now
        rw [hs] at h
        cases res with
        | ok st1 => exact noProg_append _ _ h (by rfl)
        | error e => exact noProg_append _ _ h (by rfl)

/-- `migrateToCurrentVersion` is the identity (same reference) on a truthy
object at the current version. -/
theorem migrateToCurrentVersion_current (d : JSVal) (now : Int)
    (h1 : truthy d = true) (h2 : typeofObject d = true)
    (hver : getField d "version" = vStr CURRENT_SCHEMA_VERSION) :
    migrateToCurrentVersion d now = (d, true) := by
  rw [migrateToCurrentVersion, if_neg (by simp [h1, h2])]
  rw [hver]
  rfl

/-- On an available medium holding a valid current-version document,
`getStorageData` is a pure read: no state change, no events. -/
theorem getStorageData_normal (st : SvcState) (doc : JSVal) (now : Int)
    (hav : st.available = true) (hst : st.store = .val doc)
    (hv : validateStorageData doc = true)
    (hver : getField doc "version" = vStr CURRENT_SCHEMA_VERSION) :
    getStorageData st now = (st, [], doc) := by
  obtain ⟨ht, hty, -⟩ := validateStorageData_fields doc hv
  rw [getStorageData, hst, if_neg (by simp [hav])]
  dsimp only
  rw [if_neg (by simp [hv]), migrateToCurrentVersion_current doc now ht hty hver]

/-! ### Behaviour of `getWorldProgress` -/

/-- Every successful result of the `getWorldProgress` try-body is a shaped
progress object. -/
theorem getWorldProgressBody_ok_shape (wid : JSVal) (st : SvcState) (now : Int) (r : JSVal)
    (h : (getWorldProgressBody wid st now).2.2 = .ok r) : isProgressShaped r = true := by
  rw [getWorldProgressBody] at h
  cases h1 : validateWorldId wid with
  | error e => rw [h1] at h; cases h
  | ok sid =>
    rw [h1] at h
    dsimp only at h
    rcases hgs : getStorageData st now with ⟨st1, evs1, data⟩
    rw [hgs] at h
    dsimp only at h
    cases hfe : (getFieldE data "worlds").bind (fun ws => getFieldE ws sid) with
    | error e => rw [hfe] at h; cases h
    | ok w =>
      rw [hfe] at h
      dsimp only at h
      by_cases htw : truthy w = true
      · rw [if_neg (by simp [htw])] at h
        by_cases hvw : validateStorageWorldData w = true
        · rw [if_neg (by simp [hvw])] at h
          exact transformFromStorageFormat_shape _ _ _ h
        · rw [if_pos (by simp [hvw])] at h
          cases hsw : setWorldField data sid (migrateWorldData w now) with
          | error e => rw [hsw] at h; cases h
          | ok data2 =>
            rw [hsw] at h
            dsimp only at h
            rcases hss : saveStorageData data2 st1 now with ⟨evs2, res2⟩
            rw [hss] at h
            cases res2 with
            | error e => dsimp only at h; cases h
            | ok st2 =>
              dsimp only at h
              exact transformFromStorageFormat_shape _ _ _ h
      · rw [if_pos (by simp [htw])] at h
        exact createDefaultWorldProgress_shape _ _ _ h

/-- `getWorldProgress` always returns a shaped progress object, for any
world id, service state and clock. -/
theorem getWorldProgress_shaped (wid : JSVal) (st : SvcState) (now : Int) :
    isProgressShaped (getWorldProgress wid st now).2.2 = true := by
  rw [getWorldProgress]
  rcases hb : getWorldProgressBody wid st now with ⟨st', evs, res⟩
  cases res with
  | ok r =>
    dsimp only
    exact getWorldProgressBody_ok_shape wid st now r (by rw [hb])
  | error e =>
    dsimp only
    cases hd : createDefaultWorldProgress wid now with
    | ok p =>
      dsimp only
      exact createDefaultWorldProgress_shape _ _ _ hd
    | error e2 =>
      dsimp only
      rfl

/-! ### Behaviour of `saveWorldProgress` -/

/-- The synchronous part of an immediate save never notifies
progress-change listeners. -/
theorem saveWorldProgressImmediate_no_progress_events (sid : String) (q : JSVal)
    (st : SvcState) (now : Int) :
    ((saveWorldProgressImmediate sid q st now).2.any Event.isProgressChanged) = false := by
  rw [saveWorldProgressImmediate]
  cases ht : transformToStorageFormat q with
  | error e => rfl
  | ok sd =>
    rcases hgs : getStorageData st now with ⟨st1, evs1, data⟩
    dsimp only
    have hg : (evs1.any Event.isProgressChanged) = false := by
      have h0 := getStorageData_no_progress_events st now
      rw [hgs] at h0; exact h0
    cases hsw : (setWorldField data sid sd).bind (fun d1 => setMetaLastAccessed d1 now) with
    | error e => exact hg
    | ok d2 =>
      dsimp only
      rcases hss : saveStorageData d2 st1 now with ⟨evs2, res2⟩
      have h2 := saveStorageData_no_progress_events d2 st1 now
      rw [hss] at h2
      cases res2 with
      | error e => exact noProg_append _ _ hg h2
      | ok st2 => exact noProg_append _ _ hg h2

/-- A numeric value is not `undefined`. -/
theorem isNum_ne_vUndef (v : JSVal) (h : isNum v = true) : v ≠ vUndef := by
  intro hcon; subst hcon; cases h

/-- On a valid current-version document whose target world has no truthy
record, `getWorldProgress` returns the default progress for the sanitized
id, with no state change and no events. -/
theorem getWorldProgress_default_on_missing (wid : JSVal) (st : SvcState) (doc : JSVal)
    (now : Int) (sid : String)
    (hsid : validateWorldId wid = .ok sid)
    (hav : st.available = true) (hst : st.store = .val doc)
    (hv : validateStorageData doc = true)
    (hver : getField doc "version" = vStr CURRENT_SCHEMA_VERSION)
    (habs : truthy (getField (getField doc "worlds") sid) = false) :
    getWorldProgress wid st now = (st, [],
      vObj [("worldId", vStr sid), ("solvedPuzzles", vSet []),
            ("unlockedPuzzles", vSet [vStr "puzzle_1"]),
            ("lastUpdated", vNum now), ("version", vStr CURRENT_SCHEMA_VERSION)]) := by
  obtain ⟨htd, -, -, -, hwt, -⟩ := validateStorageData_fields doc hv
  have hbody : getWorldProgressBody wid st now = (st, [],
      .ok (vObj [("worldId", vStr sid), ("solvedPuzzles", vSet []),
                 ("unlockedPuzzles", vSet [vStr "puzzle_1"]),
                 ("lastUpdated", vNum now), ("version", vStr CURRENT_SCHEMA_VERSION)])) := by
    rw [getWorldProgressBody, hsid]
    dsimp only
    rw [getStorageData_normal st doc now hav hst hv hver]
    dsimp only
    have hb1 : (getFieldE doc "worlds").bind (fun ws => getFieldE ws sid) =
        .ok (getField (getField doc "worlds") sid) := by
      rw [getFieldE_truthy doc "worlds" htd]
      show (getFieldE (getField doc "worlds") sid) = _
      exact getFieldE_truthy _ sid hwt
    rw [hb1]
    dsimp only
    rw [if_pos (by simp [habs])]
    rw [createDefaultWorldProgress,
        validateWorldId_canonical sid (validateWorldId_out_canonical wid sid hsid)]
  rw [getWorldProgress, hbody]

/-- The reset record validates. -/
theorem resetRecord_valid (now : Int) :
    validateStorageWorldData (resetRecord now) = true := rfl

/-- The happy path of `resetWorldProgress`: on an available medium holding
a valid current-version document with an object worlds map, and with the
updated document within the 5MB size guard, the reset record replaces
exactly the target world, metadata gets the new `lastAccessed`, the write
happens in this very call (no debounce timer is added), and the reset
progress object is the one notification. -/
theorem resetWorldProgress_normal (wid : JSVal) (st : SvcState) (doc : JSVal)
    (now : Int) (sid : String) (ws : List (String × JSVal))
    (hsid : validateWorldId wid = .ok sid)
    (hav : st.available = true) (hst : st.store = .val doc)
    (hv : validateStorageData doc = true)
    (hver : getField doc "version" = vStr CURRENT_SCHEMA_VERSION)
    (hws : getField doc "worlds" = vObj ws)
    (hsz : resetUpdateWithinLimit doc sid now = true) :
    ∃ (st2 : SvcState) (d2 : JSVal),
      resetWorldProgress wid st now =
        (st2, [Event.progressChanged (vStr sid) (resetProgressObj sid now)], .ok ()) ∧
      st2.store = .val d2 ∧ st2.available = st.available ∧
      st2.inMemory = st.inMemory ∧ st2.pending = st.pending ∧
      st2.retryTimers = st.retryTimers ∧
      validateStorageData d2 = true ∧
      getField (getField d2 "worlds") sid = resetRecord now ∧
      (∀ k, k ≠ sid → getField (getField d2 "worlds") k = getField (vObj ws) k) ∧
      getField d2 "version" = getField doc "version" ∧
      getField (getField d2 "metadata") "lastAccessed" = vNum now := by
  obtain ⟨htd, -, hvt, hvs, hwt, -, -, -, hca, -, hall⟩ := validateStorageData_fields doc hv
  obtain ⟨dfs, hdoc⟩ := field_forces_vObj doc "worlds"
    (by rw [hws]; intro hcon; cases hcon)
  obtain ⟨mfs, hmeta⟩ := field_forces_vObj (getField doc "metadata") "createdAt"
    (isNum_ne_vUndef _ hca)
  -- the document after `data.worlds[sid] = resetData`
  have hsw : setWorldField doc sid (resetRecord now) =
      .ok (vObj (upsertField dfs "worlds"
        (vObj (upsertField ws sid (resetRecord now))))) := by
    rw [setWorldField, getFieldE_truthy doc "worlds" htd, hws]
    dsimp only [setFieldE]
    rw [hdoc]
  -- the document after `data.metadata.lastAccessed = now`
  have hmeta1 : getField (vObj (upsertField dfs "worlds"
      (vObj (upsertField ws sid (resetRecord now))))) "metadata" = vObj mfs := by
    rw [getField_upsert_ne dfs "worlds" "metadata" _ (by decide), ← hdoc, hmeta]
  have hsm : setMetaLastAccessed (vObj (upsertField dfs "worlds"
      (vObj (upsertField ws sid (resetRecord now))))) now =
      .ok (vObj (upsertField (upsertField dfs "worlds"
        (vObj (upsertField ws sid (resetRecord now)))) "metadata"
        (vObj (upsertField mfs "lastAccessed" (vNum now))))) := by
    rw [setMetaLastAccessed]
    dsimp only [getFieldE]
    rw [hmeta1]
    rfl
  set d2 : JSVal := vObj (upsertField (upsertField dfs "worlds"
      (vObj (upsertField ws sid (resetRecord now)))) "metadata"
      (vObj (upsertField mfs "lastAccessed" (vNum now)))) with hd2def
  -- field reads of the final document
  have hd2worlds : getField d2 "worlds" = vObj (upsertField ws sid (resetRecord now)) := by
    rw [hd2def, getField_upsert_ne _ "metadata" "worlds" _ (by decide),
        getField_upsert_self]
  have hd2ver : getField d2 "version" = getField doc "version" := by
    rw [hd2def, getField_upsert_ne _ "metadata" "version" _ (by decide),
        getField_upsert_ne _ "worlds" "version" _ (by decide), hdoc]
  have hd2meta : getField d2 "metadata" =
      vObj (upsertField mfs "lastAccessed" (vNum now)) := by
    rw [hd2def, getField_upsert_self]
  have hd2ca : getField (getField d2 "metadata") "createdAt" =
      getField (getField doc "metadata") "createdAt" := by
    rw [hd2meta, getField_upsert_ne mfs "lastAccessed" "createdAt" _ (by decide), hmeta]
  have hd2la : getField (getField d2 "metadata") "lastAccessed" = vNum now := by
    rw [hd2meta, getField_upsert_self]
  -- validity of the final document
  have hallw : ∀ e ∈ upsertField ws sid (resetRecord now),
      validateStorageWorldData e.2 = true := by
    refine upsert_preserves_all _ ws sid _ ?_ (resetRecord_valid now)
    intro e he
    exact hall e (by rw [hws]; exact he)
  have hvd2 : validateStorageData d2 = true := by
    rw [validateStorageData, hd2ca, hd2la, hd2meta, hd2worlds, hd2ver, hd2def]
    simp only [Bool.and_eq_true, entriesOf, List.all_eq_true]
    exact ⟨⟨⟨⟨⟨⟨⟨⟨⟨⟨rfl, rfl⟩, hvt⟩, rfl⟩, rfl⟩, hvs⟩, rfl⟩, rfl⟩, hca⟩, rfl⟩,
      fun e he => hallw e he⟩
  have hbind : (setWorldField doc sid (resetRecord now)).bind
      (fun d1 => setMetaLastAccessed d1 now) = .ok d2 := by rw [hsw]; exact hsm
  have hok : sizeOkay d2 = true := by
    rw [resetUpdateWithinLimit, hbind] at hsz
    exact hsz
  refine ⟨{ st with store := .val d2 }, d2, ?_, rfl, rfl, rfl, rfl, rfl, hvd2, ?_, ?_,
    hd2ver, hd2la⟩
  · rw [resetWorldProgress, hsid]
    dsimp only
    rw [getStorageData_normal st doc now hav hst hv hver]
    dsimp only
    rw [hbind]
    dsimp only
    rw [saveStorageData_ok_of_valid d2 st now hvd2 hav hok]
    rfl
  · rw [hd2worlds, getField_upsert_self]
  · intro k hk
    rw [hd2worlds, getField_upsert_ne ws sid k _ hk]

/-- The oversized path of `resetWorldProgress`: when the updated document
is valid but violates the size guard, the internal save resets the whole
store to a fresh default, emits an `UNKNOWN_ERROR` event and schedules a
retry timer — and the call still notifies the reset progress and returns
normally. -/
theorem resetWorldProgress_oversized (wid : JSVal) (st : SvcState) (doc : JSVal)
    (now : Int) (sid : String) (d2 : JSVal)
    (hsid : validateWorldId wid = .ok sid)
    (hav : st.available = true) (hst : st.store = .val doc)
    (hv : validateStorageData doc = true)
    (hver : getField doc "version" = vStr CURRENT_SCHEMA_VERSION)
    (hbind : (setWorldField doc sid (resetRecord now)).bind
        (fun d1 => setMetaLastAccessed d1 now) = .ok d2)
    (hvd2 : validateStorageData d2 = true)
    (hsz : sizeOkay d2 = false) :
    resetWorldProgress wid st now =
      ({ st with store := .val (createDefaultStorageData now),
                 retryTimers := st.retryTimers + 1 },
       [Event.errorEmitted "UNKNOWN_ERROR",
        Event.progressChanged (vStr sid) (resetProgressObj sid now)], .ok ()) := by
  rw [resetWorldProgress, hsid]
  dsimp only
  rw [getStorageData_normal st doc now hav hst hv hver]
  dsimp only
  rw [hbind]
  dsimp only
  rw [saveStorageData_oversized d2 st now hvd2 hav hsz]
  rfl

/-! ### Serialized sizes: the oversized document trips the 5MB guard -/

/-- UTF-8 byte counting distributes over character-list concatenation. -/
theorem utf8_go_append (l1 l2 : List Char) :
    String.utf8ByteSize.go (l1 ++ l2) =
      String.utf8ByteSize.go l1 + String.utf8ByteSize.go l2 := by
  induction l1 with
  | nil => simp [String.utf8ByteSize.go]
  | cons c t ih =>
    show String.utf8ByteSize.go (t ++ l2) + c.utf8Size =
      String.utf8ByteSize.go t + c.utf8Size + String.utf8ByteSize.go l2
    rw [ih]
    omega

/-- UTF-8 byte size distributes over string append. -/
theorem utf8_append (a b : String) :
    (a ++ b).utf8ByteSize = a.utf8ByteSize + b.utf8ByteSize := by
  cases a with
  | mk l1 =>
    cases b with
    | mk l2 =>
      show String.utf8ByteSize (String.mk (l1 ++ l2)) = _
      simp only [String.utf8ByteSize]
      exact utf8_go_append l1 l2

/-- A string is at least as long as its prefix. -/
theorem utf8_le_left (a b : String) : a.utf8ByteSize ≤ (a ++ b).utf8ByteSize := by
  rw [utf8_append]; omega

/-- A string is at least as long as its suffix. -/
theorem utf8_le_right (a b : String) : b.utf8ByteSize ≤ (a ++ b).utf8ByteSize := by
  rw [utf8_append]; omega

/-- A joined list is at least as long as any of its members. -/
theorem joinSep_mem_le (sep s : String) :
    ∀ l : List String, s ∈ l → s.utf8ByteSize ≤ (joinSep sep l).utf8ByteSize := by
  intro l
  induction l with
  | nil => intro h; cases h
  | cons a t ih =>
    intro h
    cases t with
    | nil =>
      cases h with
      | head => exact Nat.le_refl _
      | tail _ h2 => cases h2
    | cons b r =>
      cases h with
      | head =>
        show s.utf8ByteSize ≤ (s ++ sep ++ joinSep sep (b :: r)).utf8ByteSize
        exact Nat.le_trans (utf8_le_left s sep) (utf8_le_left (s ++ sep) _)
      | tail _ h2 =>
        show s.utf8ByteSize ≤ (a ++ sep ++ joinSep sep (b :: r)).utf8ByteSize
        exact Nat.le_trans (ih h2) (utf8_le_right (a ++ sep) _)

/-- A defined property contributes its serialized form to the serialized
field list. -/
theorem jsonStringifyFields_mem (k : String) (v : JSVal) (hne : v ≠ vUndef) :
    ∀ fs : List (String × JSVal), (k, v) ∈ fs →
      (jsonQuote k ++ ":" ++ jsonStringify v) ∈ jsonStringifyFields fs := by
  intro fs
  induction fs with
  | nil => intro h; cases h
  | cons p t ih =>
    intro h
    obtain ⟨k2, v2⟩ := p
    cases h with
    | head =>
      cases v <;> first
        | exact absurd rfl hne
        | exact List.Mem.head _
    | tail _ h2 =>
      cases v2 <;> first
        | exact ih h2
        | exact List.Mem.tail _ (ih h2)

/-- Every element contributes its serialized form to the serialized
element list. -/
theorem jsonStringifyArr_mem (x : JSVal) :
    ∀ xs : List JSVal, x ∈ xs →
      jsonStringify x ∈ jsonStringifyArr xs := by
  intro xs
  induction xs with
  | nil => intro h; cases h
  | cons a t ih =>
    intro h
    cases h with
    | head => exact List.Mem.head _
    | tail _ h2 => exact List.Mem.tail _ (ih h2)

/-- A serialized object is at least as large as any defined property's
serialized value. -/
theorem jsonStringify_obj_ge (fs : List (String × JSVal)) (k : String) (v : JSVal)
    (hmem : (k, v) ∈ fs) (hne : v ≠ vUndef) :
    (jsonStringify v).utf8ByteSize ≤ (jsonStringify (vObj fs)).utf8ByteSize := by
  have h1 := jsonStringifyFields_mem k v hne fs hmem
  have h2 := joinSep_mem_le "," (jsonQuote k ++ ":" ++ jsonStringify v)
    (jsonStringifyFields fs) h1
  have h3 : (jsonStringify v).utf8ByteSize ≤
      (jsonQuote k ++ ":" ++ jsonStringify v).utf8ByteSize :=
    utf8_le_right (jsonQuote k ++ ":") (jsonStringify v)
  show (jsonStringify v).utf8ByteSize ≤
    ("\x7b" ++ joinSep "," (jsonStringifyFields fs) ++ "\x7d").utf8ByteSize
  have h4 : (joinSep "," (jsonStringifyFields fs)).utf8ByteSize ≤
      ("\x7b" ++ joinSep "," (jsonStringifyFields fs) ++ "\x7d").utf8ByteSize :=
    Nat.le_trans (utf8_le_right "\x7b" _) (utf8_le_left _ "\x7d")
  omega

/-- A serialized array is at least as large as any element's serialized
form. -/
theorem jsonStringify_arr_ge (xs : List JSVal) (x : JSVal) (hmem : x ∈ xs) :
    (jsonStringify x).utf8ByteSize ≤ (jsonStringify (vArr xs)).utf8ByteSize := by
  have h1 := jsonStringifyArr_mem x xs hmem
  have h2 := joinSep_mem_le "," (jsonStringify x) (jsonStringifyArr xs) h1
  show _ ≤ ("[" ++ joinSep "," (jsonStringifyArr xs) ++ "]").utf8ByteSize
  have h4 : (joinSep "," (jsonStringifyArr xs)).utf8ByteSize ≤
      ("[" ++ joinSep "," (jsonStringifyArr xs) ++ "]").utf8ByteSize :=
    Nat.le_trans (utf8_le_right "[" _) (utf8_le_left _ "]")
  omega

/-- Escaping `n` plain characters yields `n` bytes. -/
theorem jsonEscape_replicate_p (n : Nat) :
    (jsonEscape (List.replicate n 'p')).utf8ByteSize = n := by
  induction n with
  | zero => rfl
  | succ m ih =>
    rw [List.replicate_succ]
    show (jsonEscapeChar 'p' ++ jsonEscape (List.replicate m 'p')).utf8ByteSize = m + 1
    have h1 : (jsonEscapeChar 'p').utf8ByteSize = 1 := rfl
    rw [utf8_append, ih, h1]
    omega

/-- The oversized puzzle id serializes to 6000002 bytes. -/
theorem jsonQuote_bigP_size : (jsonQuote bigP).utf8ByteSize = 6000002 := by
  show ("\"" ++ jsonEscape (List.replicate 6000000 'p') ++ "\"").utf8ByteSize = 6000002
  have hq : ("\"" : String).utf8ByteSize = 1 := rfl
  rw [utf8_append, utf8_append, jsonEscape_replicate_p, hq]

/-- On an object the size guard tests the serialized object itself. -/
theorem sizeOkay_vObj (fs : List (String × JSVal)) :
    sizeOkay (vObj fs) =
      decide ((jsonStringify (vObj fs)).utf8ByteSize ≤ maxStorageSize) := rfl

/-- The updated oversized document trips the 5MB size guard. -/
theorem sizeOkay_bigD2 : sizeOkay bigD2 = false := by
  have h1 : (jsonQuote bigP).utf8ByteSize ≤
      (jsonStringify (vArr [vStr bigP])).utf8ByteSize :=
    jsonStringify_arr_ge [vStr bigP] (vStr bigP) (List.Mem.head _)
  have h2 : (jsonStringify (vArr [vStr bigP])).utf8ByteSize ≤
      (jsonStringify bigRec).utf8ByteSize :=
    jsonStringify_obj_ge
      [("solvedPuzzles", vArr []), ("unlockedPuzzles", vArr [vStr bigP]),
       ("lastUpdated", vNum 1)]
      "unlockedPuzzles" (vArr [vStr bigP])
      (List.Mem.tail _ (List.Mem.head _)) (fun h => JSVal.noConfusion h)
  have h3 : (jsonStringify bigRec).utf8ByteSize ≤
      (jsonStringify (vObj [("v", bigRec), ("w", resetRecord 5)])).utf8ByteSize :=
    jsonStringify_obj_ge [("v", bigRec), ("w", resetRecord 5)] "v" bigRec
      (List.Mem.head _) (fun h => JSVal.noConfusion h)
  have h4 : (jsonStringify (vObj [("v", bigRec), ("w", resetRecord 5)])).utf8ByteSize ≤
      (jsonStringify (vObj
        [("version", vStr "1.0.0"),
         ("worlds", vObj [("v", bigRec), ("w", resetRecord 5)]),
         ("metadata", vObj [("createdAt", vNum 0),
                            ("lastAccessed", vNum 5)])])).utf8ByteSize :=
    jsonStringify_obj_ge
      [("version", vStr "1.0.0"),
       ("worlds", vObj [("v", bigRec), ("w", resetRecord 5)]),
       ("metadata", vObj [("createdAt", vNum 0), ("lastAccessed", vNum 5)])]
      "worlds" (vObj [("v", bigRec), ("w", resetRecord 5)])
      (List.Mem.tail _ (List.Mem.head _)) (fun h => JSVal.noConfusion h)
  have hchain : (6000002 : Nat) ≤
      (jsonStringify (vObj
        [("version", vStr "1.0.0"),
         ("worlds", vObj [("v", bigRec), ("w", resetRecord 5)]),
         ("metadata", vObj [("createdAt", vNum 0),
                            ("lastAccessed", vNum 5)])])).utf8ByteSize := by
    rw [← jsonQuote_bigP_size]
    exact Nat.le_trans h1 (Nat.le_trans h2 (Nat.le_trans h3 h4))
  have hd2 : bigD2 = vObj
      [("version", vStr "1.0.0"),
       ("worlds", vObj [("v", bigRec), ("w", resetRecord 5)]),
       ("metadata", vObj [("createdAt", vNum 0), ("lastAccessed", vNum 5)])] := rfl
  rw [hd2, sizeOkay_vObj, decide_eq_false_iff_not]
  intro hc
  exact absurd (Nat.le_trans hchain hc) (by decide)

/-! ### Further helper lemmas for the claims -/

/-- Fields guaranteed by `validateWorldProgress`. -/
theorem validateWorldProgress_fields (p : JSVal) (h : validateWorldProgress p = true) :
    truthy p = true ∧ typeofObject p = true ∧
    isStr (getField p "worldId") = true ∧ isNum (getField p "lastUpdated") = true := by
  rw [validateWorldProgress] at h
  simp only [Bool.and_eq_true] at h
  exact ⟨h.1.1.1.1.1.1.1, h.1.1.1.1.1.1.2, h.1.1.1.1.1.2, h.1.1.1.1.2⟩

/-- The missing-unlock loop never throws against an array unlocked list. -/
theorem missingUnlockIssues_ok (k : String) (ys : List JSVal) :
    ∀ l : List JSVal, ∃ out, missingUnlockIssues k (vArr ys) l = .ok out := by
  intro l
  induction l with
  | nil => exact ⟨[], rfl⟩
  | cons p rest ih =>
    obtain ⟨out, hout⟩ := ih
    rw [missingUnlockIssues]
    dsimp only [includesE]
    rw [hout]
    exact ⟨_, rfl⟩

/-- Per-world integrity checking never throws on a valid record. -/
theorem checkWorldIssues_ok (k : String) (w : JSVal)
    (h : validateStorageWorldData w = true) :
    ∃ out, checkWorldIssues k w = .ok out := by
  obtain ⟨ht, ⟨xs, hxs⟩, ⟨ys, hys⟩, -⟩ := validateStorageWorldData_fields w h
  rw [checkWorldIssues, getFieldE_truthy w _ ht, hxs]
  dsimp only [setFromE]
  rw [getFieldE_truthy w _ ht, hys]
  dsimp only [setFromE, lengthOfE, spreadE]
  obtain ⟨out, hout⟩ := missingUnlockIssues_ok k ys xs
  rw [hout]
  exact ⟨_, rfl⟩

/-- The per-world loop never throws when every record is valid. -/
theorem checkWorlds_ok :
    ∀ l : List (String × JSVal),
      (∀ e ∈ l, validateStorageWorldData e.2 = true) →
      ∃ out, checkWorlds l = .ok out := by
  intro l
  induction l with
  | nil => intro _; exact ⟨[], rfl⟩
  | cons e rest ih =>
    intro hall
    obtain ⟨k, w⟩ := e
    obtain ⟨here, hhere⟩ := checkWorldIssues_ok k w (hall _ (List.mem_cons_self _ _))
    obtain ⟨there, hthere⟩ := ih (fun e' he' => hall e' (List.mem_cons_of_mem _ he'))
    rw [checkWorlds, hhere, hthere]
    exact ⟨_, rfl⟩

/-- `checkIntegrity` never throws: every input yields an issue list. -/
theorem checkIntegrity_total (d : JSVal) : ∃ issues, checkIntegrity d = .ok issues := by
  rw [checkIntegrity]
  by_cases hv : validateStorageData d = true
  · rw [if_neg (by simp [hv])]
    obtain ⟨-, -, -, -, -, -, -, -, -, -, hall⟩ := validateStorageData_fields d hv
    obtain ⟨out, hout⟩ := checkWorlds_ok _ hall
    rw [hout]
    exact ⟨_, rfl⟩
  · rw [if_pos (by simp [hv])]
    exact ⟨_, rfl⟩

/-- The unlocked-set extraction of a sanitized progress literal. -/
theorem unlockedContainsPuzzle1_literal (a b c d : JSVal) (U : List JSVal) :
    unlockedContainsPuzzle1 (vObj [("worldId", a), ("solvedPuzzles", b),
      ("unlockedPuzzles", vSet U), ("lastUpdated", c), ("version", d)]) =
    memJs (vStr "puzzle_1") U := rfl

/-- `puzzle_1` survives deduplication when seeded first. -/
theorem memJs_puzzle1_dedup_cons (l : List JSVal) :
    memJs (vStr "puzzle_1") (jsDedup (vStr "puzzle_1" :: l)) = true := by
  rw [memJs_jsDedup]
  simp [memJs, jsBeq]

/-! ### The claims -/

/-- C1, counterexample: with a usable world id, a well-formed progress and
`immediate = true`, `saveWorldProgress` returns normally yet emits no
progress-change notification before returning — refuting the claim that
the notification is emitted whether `immediate` is true or false. -/
theorem claimC1_counterexample :
    (saveWorldProgress (vStr "w") exProgress true defaultState 5).2.2 = .ok () ∧
    ((saveWorldProgress (vStr "w") exProgress true defaultState 5).2.1.any
      Event.isProgressChanged) = false := ⟨rfl, rfl⟩

/-- C1, amended: for every usable world id, `saveWorldProgress` emits the
progress-change notification carrying the sanitized progress synchronously
before returning only on the debounced path (`immediate = false`), where it
also resets the world's debounce timer; with `immediate = true` it performs
the immediate write and returns with no progress-change notification. -/
theorem claimC1_amended :
    (∀ (wid p : JSVal) (st : SvcState) (now : Int) (sid : String) (q : JSVal),
      validateWorldId wid = .ok sid →
      sanitizeWorldProgress (mergedProgress p sid) now = .ok q →
      saveWorldProgress wid p false st now =
        ({ st with pending := (st.pending.filter (· ≠ sid)) ++ [sid] },
         [Event.progressChanged (vStr sid) q], .ok ())) ∧
    (∀ (wid p : JSVal) (st : SvcState) (now : Int) (sid : String),
      validateWorldId wid = .ok sid →
      ((saveWorldProgress wid p true st now).2.1.any Event.isProgressChanged) = false ∧
      (saveWorldProgress wid p true st now).2.2 = .ok ()) := by
  constructor
  · intro wid p st now sid q hsid hq
    rw [saveWorldProgress, hsid]
    dsimp only
    rw [hq]
    rfl
  · intro wid p st now sid hsid
    rw [saveWorldProgress, hsid]
    dsimp only
    cases hs : sanitizeWorldProgress (mergedProgress p sid) now with
    | ok q =>
      dsimp only
      rcases hrun : saveWorldProgressImmediate sid q st now with ⟨st1, evs1⟩
      have hnp := saveWorldProgressImmediate_no_progress_events sid q st now
      rw [hrun] at hnp
      refine ⟨?_, rfl⟩
      rw [if_pos rfl]
      dsimp only
      simpa [List.any_append, Event.isProgressChanged] using hnp
    | error e =>
      dsimp only
      rcases hrun : saveWorldProgressImmediate sid (safeFallbackProgress sid now) st now
        with ⟨st1, evs1⟩
      have hnp := saveWorldProgressImmediate_no_progress_events sid
        (safeFallbackProgress sid now) st now
      rw [hrun] at hnp
      refine ⟨?_, rfl⟩
      rw [if_pos rfl]
      dsimp only
      simpa [List.any_append, Event.isProgressChanged] using hnp

/-- C1, witness: the amended claim at world `w` over a fresh default store:
the debounced call notifies with the sanitized progress, the immediate call
does not notify. -/
theorem claimC1_witness :
    saveWorldProgress (vStr "w") exProgress false defaultState 5 =
      ({ defaultState with pending := ["w"] },
       [Event.progressChanged (vStr "w") exSanitized], .ok ()) ∧
    ((saveWorldProgress (vStr "w") exProgress true defaultState 5).2.1.any
      Event.isProgressChanged) = false :=
  ⟨claimC1_amended.1 (vStr "w") exProgress defaultState 5 "w" exSanitized rfl rfl,
   (claimC1_amended.2 (vStr "w") exProgress defaultState 5 "w" rfl).1⟩

/-- C2, counterexample: a persisted, structurally valid record for world
`w` with `unlockedPuzzles = ["a"]` is returned by `getWorldProgress` as the
set `{"a"}`, which does not contain `puzzle_1` — refuting the claim for
arbitrary persisted document states. -/
theorem claimC2_counterexample :
    getField (getWorldProgress (vStr "w") worldAState 5).2.2 "unlockedPuzzles" =
      vSet [vStr "a"] ∧
    unlockedContainsPuzzle1 (getWorldProgress (vStr "w") worldAState 5).2.2 = false :=
  ⟨rfl, rfl⟩

/-- C2, amended: when the persisted document is valid and current but holds
no truthy record for the requested world, `getWorldProgress` returns the
default progress whose unlockedPuzzles is exactly the singleton
`{puzzle_1}` (and whose solved set is empty); a stored valid record is
returned as sanitized and need not contain `puzzle_1`. -/
theorem claimC2_amended :
    ∀ (wid : JSVal) (st : SvcState) (doc : JSVal) (now : Int) (sid : String),
      validateWorldId wid = .ok sid →
      st.available = true → st.store = .val doc →
      validateStorageData doc = true →
      getField doc "version" = vStr CURRENT_SCHEMA_VERSION →
      truthy (getField (getField doc "worlds") sid) = false →
      getField (getWorldProgress wid st now).2.2 "unlockedPuzzles" =
        vSet [vStr "puzzle_1"] ∧
      getField (getWorldProgress wid st now).2.2 "solvedPuzzles" = vSet [] := by
  intro wid st doc now sid h1 h2 h3 h4 h5 h6
  rw [getWorldProgress_default_on_missing wid st doc now sid h1 h2 h3 h4 h5 h6]
  exact ⟨rfl, rfl⟩

/-- C2, witness: the amended claim on a fresh default document and world
`w1`. -/
theorem claimC2_witness :
    getField (getWorldProgress (vStr "w1") defaultState 7).2.2 "unlockedPuzzles" =
      vSet [vStr "puzzle_1"] :=
  (claimC2_amended (vStr "w1") defaultState (createDefaultStorageData 0) 7 "w1"
    rfl rfl rfl rfl rfl rfl).1

/-- C3, counterexample: `repairStorageData` preserves an empty-string
version, which `validateStorageData` rejects as falsy — so repair is not
repairing on this input, refuting the claim. -/
theorem claimC3_counterexample :
    validateStorageData (repairStorageData emptyVersionDoc 7) = false := rfl

/-- C3, amended: `repairStorageData` is total (the embedding is a total
function) and, for every input except objects carrying the empty-string
version (which repair preserves verbatim but validation rejects as falsy),
the repaired document satisfies `validateStorageData`. -/
theorem claimC3_amended :
    ∀ (x : JSVal) (now : Int), getField x "version" ≠ vStr "" →
      validateStorageData (repairStorageData x now) = true :=
  fun x now h => repairStorageData_valid x now h

/-- C3, witness: the amended claim on the corrupted document from the
repository's own test suite. -/
theorem claimC3_witness :
    getField corruptedTestDoc "version" ≠ vStr "" ∧
    validateStorageData (repairStorageData corruptedTestDoc 7) = true :=
  ⟨fun h => JSVal.noConfusion h,
   claimC3_amended corruptedTestDoc 7 (fun h => JSVal.noConfusion h)⟩

/-- C4, confirmed: `getWorldProgress` is total (the embedding returns
without an exception for every world id, service state and clock) and
always yields a progress object — a truthy object with `Set`-valued puzzle
collections and a numeric timestamp; when even the world id is unusable,
the hardcoded minimal fallback is returned, whose unlocked set is exactly
`{puzzle_1}`. -/
theorem claimC4 :
    (∀ (wid : JSVal) (st : SvcState) (now : Int),
      isProgressShaped (getWorldProgress wid st now).2.2 = true) ∧
    (∀ (wid : JSVal) (st : SvcState) (now : Int) (e : String),
      validateWorldId wid = .error e →
      getField (getWorldProgress wid st now).2.2 "unlockedPuzzles" =
        vSet [vStr "puzzle_1"]) := by
  constructor
  · exact getWorldProgress_shaped
  · intro wid st now e he
    have hbody : getWorldProgressBody wid st now = (st, [], .error e) := by
      rw [getWorldProgressBody, he]
    rw [getWorldProgress, hbody]
    dsimp only
    rw [show createDefaultWorldProgress wid now = .error e from by
      rw [createDefaultWorldProgress, he]]
    rfl

/-- C4, witness: an unusable world id still yields a shaped progress with
unlocked set `{puzzle_1}`. -/
theorem claimC4_witness :
    isProgressShaped (getWorldProgress (vStr "@@@") defaultState 0).2.2 = true ∧
    getField (getWorldProgress (vStr "@@@") defaultState 0).2.2 "unlockedPuzzles" =
      vSet [vStr "puzzle_1"] :=
  ⟨claimC4.1 (vStr "@@@") defaultState 0,
   claimC4.2 (vStr "@@@") defaultState 0 "World ID contains no valid characters" rfl⟩

/-- C5, confirmed: `sanitizeWorldProgress` succeeds exactly when the
input's worldId is usable (every non-object input has an unusable —
undefined — worldId), and every successful result's unlocked set contains
`puzzle_1`. -/
theorem claimC5 :
    ∀ (p : JSVal) (now : Int),
      ((sanitizeWorldProgress p now).toBool = worldIdUsable p) ∧
      (∀ r, sanitizeWorldProgress p now = .ok r →
        unlockedContainsPuzzle1 r = true) := by
  intro p now
  constructor
  · by_cases hg : (truthy p && typeofObject p) = true
    · rw [sanitizeWorldProgress, if_neg (by simp [hg]), worldIdUsable]
      cases hw : validateWorldId (if truthy (getField p "worldId")
          then getField p "worldId" else vStr "") with
      | error e => rfl
      | ok wid => rfl
    · have hg' : ¬ ((truthy p && typeofObject p) = true) := hg
      rw [sanitizeWorldProgress, if_pos hg', worldIdUsable]
      cases p with
      | vNull => rfl
      | vUndef => rfl
      | vBool b => rfl
      | vNum n => rfl
      | vStr s => rfl
      | vObj fs => exact absurd rfl hg'
      | vArr xs => exact absurd rfl hg'
      | vSet xs => exact absurd rfl hg'
      | vPromise => exact absurd rfl hg'
  · intro r hr
    rw [sanitizeWorldProgress] at hr
    by_cases hg : (truthy p && typeofObject p) = true
    · rw [if_neg (by simp [hg])] at hr
      cases hw : validateWorldId (if truthy (getField p "worldId")
          then getField p "worldId" else vStr "") with
      | error e => rw [hw] at hr; cases hr
      | ok wid =>
        rw [hw] at hr
        dsimp only at hr
        cases hr
        rw [unlockedContainsPuzzle1_literal]
        by_cases hup : truthy (getField p "unlockedPuzzles") = true
        · rw [if_pos hup]
          cases hvu : ((spreadE (getField p "unlockedPuzzles")).bind
              validatePuzzleIdArrayL) with
          | ok ids => exact memJs_puzzle1_dedup_cons _
          | error e => rfl
        · rw [if_neg hup]
          rfl
    · rw [if_pos hg] at hr
      cases hr

/-- C5, witness: the dirty progress from the repository's sanitization test
is accepted and its sanitized unlocked set contains `puzzle_1`. -/
theorem claimC5_witness :
    sanitizeWorldProgress exC5Input 99 = .ok exC5Result ∧
    unlockedContainsPuzzle1 exC5Result = true :=
  ⟨rfl, (claimC5 exC5Input 99).2 exC5Result rfl⟩

/-- C6, counterexample: a progress that passes the structural check but
carries the empty-string world id round-trips to a thrown error, not a
progress — refuting the claim for arbitrary structurally valid inputs. -/
theorem claimC6_counterexample :
    validateWorldProgress badRoundTripProgress = true ∧
    roundTrip badRoundTripProgress = .error "World ID must be a non-empty string" :=
  ⟨rfl, rfl⟩

/-- C6, amended: for every structurally valid progress whose world id and
puzzle entries are already canonical (non-empty strings over
`[A-Za-z0-9_-]`), the round trip succeeds, preserves `worldId` and
`lastUpdated` exactly, and returns puzzle collections set-equal (same
string members) to the originals. -/
theorem claimC6_amended :
    ∀ (p : JSVal) (w : String) (xs ys : List JSVal),
      validateWorldProgress p = true →
      getField p "worldId" = vStr w → canonicalId w = true →
      spreadE (getField p "solvedPuzzles") = .ok xs → allCanonical xs = true →
      spreadE (getField p "unlockedPuzzles") = .ok ys → allCanonical ys = true →
      roundTrip p = .ok (vObj [("worldId", vStr w),
        ("solvedPuzzles", vSet (jsDedup xs)),
        ("unlockedPuzzles", vSet (jsDedup ys)),
        ("lastUpdated", getField p "lastUpdated"),
        ("version", vStr CURRENT_SCHEMA_VERSION)]) ∧
      (∀ s, memJs (vStr s) (jsDedup xs) = memJs (vStr s) xs) ∧
      (∀ s, memJs (vStr s) (jsDedup ys) = memJs (vStr s) ys) := by
  intro p w xs ys hvp hw hcw hxs hcx hys hcy
  obtain ⟨-, -, -, hnum⟩ := validateWorldProgress_fields p hvp
  obtain ⟨ss, hss, hssm⟩ := validatePuzzleIdArrayL_canonical xs hcx
  obtain ⟨ts, hts, htsm⟩ := validatePuzzleIdArrayL_canonical ys hcy
  refine ⟨?_, fun s => memJs_jsDedup s xs, fun s => memJs_jsDedup s ys⟩
  have h1 : transformToStorageFormat p =
      .ok (vObj [("solvedPuzzles", vArr xs), ("unlockedPuzzles", vArr ys),
                 ("lastUpdated", getField p "lastUpdated")]) := by
    rw [transformToStorageFormat, if_neg (by simp [hvp]), hxs]
    dsimp only [Except.bind]
    rw [hss, hys]
    dsimp only [Except.bind]
    rw [hts]
    dsimp only
    rw [hssm, htsm]
  have hsd : validateStorageWorldData (vObj [("solvedPuzzles", vArr xs),
      ("unlockedPuzzles", vArr ys),
      ("lastUpdated", getField p "lastUpdated")]) = true :=
    validateStorageWorldData_build xs ys _ hnum
  have h2 : transformFromStorageFormat (vStr w)
      (vObj [("solvedPuzzles", vArr xs), ("unlockedPuzzles", vArr ys),
             ("lastUpdated", getField p "lastUpdated")]) =
      .ok (vObj [("worldId", vStr w),
        ("solvedPuzzles", vSet (jsDedup xs)),
        ("unlockedPuzzles", vSet (jsDedup ys)),
        ("lastUpdated", getField p "lastUpdated"),
        ("version", vStr CURRENT_SCHEMA_VERSION)]) := by
    rw [transformFromStorageFormat, if_neg (by simp [hsd]),
        validateWorldId_canonical w hcw]
    rw [show getField (vObj [("solvedPuzzles", vArr xs), ("unlockedPuzzles", vArr ys),
      ("lastUpdated", getField p "lastUpdated")]) "solvedPuzzles" = vArr xs from rfl]
    rw [show validatePuzzleIdArray (vArr xs) = validatePuzzleIdArrayL xs from rfl, hss]
    rw [show getField (vObj [("solvedPuzzles", vArr xs), ("unlockedPuzzles", vArr ys),
      ("lastUpdated", getField p "lastUpdated")]) "unlockedPuzzles" = vArr ys from rfl]
    rw [show validatePuzzleIdArray (vArr ys) = validatePuzzleIdArrayL ys from rfl, hts]
    dsimp only
    rw [hssm, htsm]
    rfl
  rw [roundTrip, h1, hw]
  exact h2

/-- C6, witness: a canonical progress round-trips to itself (as sets). -/
theorem claimC6_witness :
    roundTrip goodRoundTripProgress = .ok (vObj [("worldId", vStr "w1"),
      ("solvedPuzzles", vSet [vStr "puzzle_1"]),
      ("unlockedPuzzles", vSet [vStr "puzzle_1", vStr "puzzle_2"]),
      ("lastUpdated", vNum 12345),
      ("version", vStr CURRENT_SCHEMA_VERSION)]) :=
  (claimC6_amended goodRoundTripProgress "w1" [vStr "puzzle_1"]
    [vStr "puzzle_1", vStr "puzzle_2"] rfl rfl rfl rfl rfl rfl rfl).1

/-- C7, confirmed: `migrateToCurrentVersion` returns its argument itself
(reference identity, recorded by the flag) whenever the document is a
truthy object whose version equals `1.0.0`; every other version on a
document-shaped input, and every non-document input, yields a fresh default
document with empty worlds. -/
theorem claimC7 :
    (∀ (d : JSVal) (now : Int), truthy d = true → typeofObject d = true →
      getField d "version" = vStr CURRENT_SCHEMA_VERSION →
      migrateToCurrentVersion d now = (d, true)) ∧
    (∀ (d : JSVal) (now : Int), truthy d = true → typeofObject d = true →
      getField d "version" ≠ vStr CURRENT_SCHEMA_VERSION →
      migrateToCurrentVersion d now = (createDefaultStorageData now, false)) ∧
    (∀ (d : JSVal) (now : Int), ¬ (truthy d = true ∧ typeofObject d = true) →
      migrateToCurrentVersion d now = (createDefaultStorageData now, false)) ∧
    (∀ now : Int, getField (createDefaultStorageData now) "worlds" = vObj []) := by
  refine ⟨fun d now h1 h2 h3 => migrateToCurrentVersion_current d now h1 h2 h3,
    ?_, ?_, fun now => rfl⟩
  · intro d now h1 h2 hne
    rw [migrateToCurrentVersion, if_neg (by simp [h1, h2])]
    dsimp only
    by_cases hvt : truthy (getField d "version") = true
    · rw [if_pos hvt]
      have hb : jsBeq (getField d "version") (vStr CURRENT_SCHEMA_VERSION) = false := by
        cases hbb : jsBeq (getField d "version") (vStr CURRENT_SCHEMA_VERSION) with
        | false => rfl
        | true => exact absurd ((jsBeq_vStr_iff _ _).mp hbb) hne
      rw [if_neg (by simp [isMigrationNeeded, hb])]
    · rw [if_neg hvt]
      rw [if_neg (by decide)]
  · intro d now hne
    rw [migrateToCurrentVersion, if_pos (by simpa [Bool.and_eq_true] using hne)]

/-- C7, witness: identity on a current-version document, reset on a stale
version, reset on a non-document. -/
theorem claimC7_witness :
    migrateToCurrentVersion (createDefaultStorageData 0) 3 =
      (createDefaultStorageData 0, true) ∧
    migrateToCurrentVersion staleDoc 3 = (createDefaultStorageData 3, false) ∧
    migrateToCurrentVersion (vNum 5) 3 = (createDefaultStorageData 3, false) := by
  refine ⟨claimC7.1 (createDefaultStorageData 0) 3 rfl rfl rfl, ?_, ?_⟩
  · refine claimC7.2.1 staleDoc 3 rfl rfl ?_
    intro h
    have h2 : ("0.9.0" : String) = "1.0.0" := JSVal.vStr.inj h
    exact absurd h2 (by decide)
  · refine claimC7.2.2.1 (vNum 5) 3 ?_
    intro h
    exact Bool.noConfusion h.2

/-- C8, confirmed: `checkIntegrity` reports exactly the duplicate-solved
issue on `solvedPuzzles=["a","a"], unlockedPuzzles=["a"]` and exactly the
missing-unlock issue on `solvedPuzzles=["b"], unlockedPuzzles=["a"]`; it
never throws (total, and pure by construction), and a structurally invalid
document yields the single top-level issue. -/
theorem claimC8 :
    checkIntegrity dupSolvedDoc = .ok ["Duplicate solved puzzles in world: w"] ∧
    checkIntegrity missingUnlockDoc =
      .ok ["Solved puzzle b not unlocked in world: w"] ∧
    (∀ d : JSVal, ∃ issues, checkIntegrity d = .ok issues) ∧
    (∀ d : JSVal, validateStorageData d = false →
      checkIntegrity d = .ok ["Invalid storage data structure"]) := by
  refine ⟨rfl, rfl, checkIntegrity_total, ?_⟩
  intro d hd
  rw [checkIntegrity, if_pos (by simp [hd])]

/-- C8, witness: the structural-failure clause at a non-object input. -/
theorem claimC8_witness :
    checkIntegrity (vNum 3) = .ok ["Invalid storage data structure"] :=
  claimC8.2.2.2 (vNum 3) rfl

/-- C9, counterexample: resetting the small world `w` of a valid
current-version document whose other world `v` carries an oversized record
makes the serialized update exceed the 5MB size guard: the guard inside
`saveStorageData` throws, `handleStorageError` resets the entire store to
a fresh default document, and the call still returns normally — so world
`v`'s record, present before the call, is gone afterwards, refuting both
the other-worlds-unchanged clause and the throws-on-failed-save clause of
the claim. -/
theorem claimC9_counterexample :
    (resetWorldProgress (vStr "w") bigState 5).2.2 = .ok () ∧
    truthy (getField (getField bigDoc "worlds") "v") = true ∧
    (match (resetWorldProgress (vStr "w") bigState 5).1.store with
     | .val d => getField (getField d "worlds") "v"
     | _ => vNull) = vUndef := by
  have hrun := resetWorldProgress_oversized (vStr "w") bigState bigDoc 5 "w" bigD2
    rfl rfl rfl rfl rfl rfl rfl sizeOkay_bigD2
  rw [hrun]
  exact ⟨rfl, rfl, rfl⟩

/-- C9, amended: on a usable world id over a valid current-version
document, provided the updated document stays within the 5MB size guard,
`resetWorldProgress` replaces only that world's record with the reset
record, stamps `lastAccessed`, persists in the same call without touching
the debounce timers, and emits exactly the progress-change notification
with the reset progress; and when the underlying update genuinely fails
(here: the read path surfaced its retry promise, so the write into it
throws), the error propagates to the caller. -/
theorem claimC9_amended :
    (∀ (wid : JSVal) (st : SvcState) (doc : JSVal) (now : Int) (sid : String)
        (ws : List (String × JSVal)),
      validateWorldId wid = .ok sid →
      st.available = true → st.store = .val doc →
      validateStorageData doc = true →
      getField doc "version" = vStr CURRENT_SCHEMA_VERSION →
      getField doc "worlds" = vObj ws →
      resetUpdateWithinLimit doc sid now = true →
      ∃ (st2 : SvcState) (d2 : JSVal),
        resetWorldProgress wid st now =
          (st2, [Event.progressChanged (vStr sid) (resetProgressObj sid now)], .ok ()) ∧
        st2.store = .val d2 ∧ st2.available = st.available ∧
        st2.inMemory = st.inMemory ∧ st2.pending = st.pending ∧
        st2.retryTimers = st.retryTimers ∧
        validateStorageData d2 = true ∧
        getField (getField d2 "worlds") sid = resetRecord now ∧
        (∀ k, k ≠ sid → getField (getField d2 "worlds") k = getField (vObj ws) k) ∧
        getField d2 "version" = getField doc "version" ∧
        getField (getField d2 "metadata") "lastAccessed" = vNum now) ∧
    (resetWorldProgress (vStr "w") throwState 5).2.2 =
      .error "Cannot set properties of undefined (setting w)" :=
  ⟨fun wid st doc now sid ws h1 h2 h3 h4 h5 h6 h7 =>
    resetWorldProgress_normal wid st doc now sid ws h1 h2 h3 h4 h5 h6 h7, rfl⟩

/-- C9, witness: the amended claim at world `w` of the small two-world
document, whose update is far below the size guard: the reset succeeds,
notifies with the reset progress, writes the reset record for `w` and
leaves world `v` untouched. -/
theorem claimC9_witness :
    resetUpdateWithinLimit doc9 "w" 9 = true ∧
    (resetWorldProgress (vStr "w") st9 9).2.2 = .ok () ∧
    (resetWorldProgress (vStr "w") st9 9).2.1 =
      [Event.progressChanged (vStr "w") (resetProgressObj "w" 9)] ∧
    (match (resetWorldProgress (vStr "w") st9 9).1.store with
     | .val d => getField (getField d "worlds") "w" = resetRecord 9 ∧
                 getField (getField d "worlds") "v" = getField (vObj ws9) "v"
     | _ => False) := by
  obtain ⟨st2, d2, heq, hstore, -, -, -, -, -, hw, hother, -⟩ :=
    claimC9_amended.1 (vStr "w") st9 doc9 9 "w" ws9 rfl rfl rfl rfl rfl rfl rfl
  rw [heq]
  refine ⟨rfl, rfl, rfl, ?_⟩
  dsimp only
  rw [hstore]
  exact ⟨hw, hother "v" (by decide)⟩

/-- C10, confirmed: on every structurally valid document whose version
differs from `1.0.0`, `checkIntegrity` returns a non-empty issue list
containing the version-mismatch issue, even when every world record is
internally consistent — version currency is part of what the checker
counts as clean. -/
theorem claimC10 :
    ∀ (d : JSVal) (v : String),
      validateStorageData d = true →
      getField d "version" = vStr v → v ≠ CURRENT_SCHEMA_VERSION →
      ∃ issues, checkIntegrity d = .ok issues ∧
        ("Version mismatch: " ++ v ++ " vs " ++ CURRENT_SCHEMA_VERSION) ∈ issues ∧
        issues ≠ [] := by
  intro d v hv hver hne
  obtain ⟨-, -, -, -, -, -, -, -, -, -, hall⟩ := validateStorageData_fields d hv
  obtain ⟨out, hout⟩ := checkWorlds_ok _ hall
  rw [checkIntegrity, if_neg (by simp [hv])]
  dsimp only
  rw [hout, hver]
  have hmig : isMigrationNeeded (vStr v) = true := by
    rw [isMigrationNeeded]
    have : jsBeq (vStr v) (vStr CURRENT_SCHEMA_VERSION) = false := by
      cases hbb : jsBeq (vStr v) (vStr CURRENT_SCHEMA_VERSION) with
      | false => rfl
      | true =>
        have := (jsBeq_vStr_iff _ _).mp hbb
        exact absurd (JSVal.vStr.inj this) hne
    rw [this]
    rfl
  rw [if_pos (by simp [hmig])]
  refine ⟨_, rfl, ?_, by simp⟩
  simp [jsToString]

/-- C10, witness: the stale-version document yields exactly the
version-mismatch issue. -/
theorem claimC10_witness :
    (checkIntegrity staleDoc).toBool = true ∧
    (match checkIntegrity staleDoc with
     | .ok issues =>
        ("Version mismatch: " ++ "0.9.0" ++ " vs " ++ CURRENT_SCHEMA_VERSION) ∈ issues ∧
        issues ≠ []
     | .error _ => False) := by
  obtain ⟨issues, heq, hmem, hne⟩ := claimC10 staleDoc "0.9.0" rfl rfl (by decide)
  rw [heq]
  exact ⟨rfl, hmem, hne⟩

end Puzzles
